import Mathlib

/-! # oscilloscope-renderer: parameters, the file parser, the speed mapping, the editor

A shallow embedding of `Source/audio/EffectParameter.h`, `Source/parser/FileParser.cpp`,
`PerspectiveEffect::linearSpeedToActualSpeed` of `Source/audio/PerspectiveEffect.h`, the
file cycling and the code editor vectors of `Source/PluginEditor.cpp`, and
`SettingsComponent::fileUpdated` of `Source/SettingsComponent.cpp`.

Conventions of the embedding:

* C++ `float` is read as an exact rational number (`ℚ`), so every law below is a law of
  exact arithmetic; rounding is outside the model.
* C++ `int` is read as an unbounded integer (`ℤ`); the cast `(int) x` truncates toward zero.
* `std::atomic<T>` fields are plain fields: every method is modelled as one atomic step.
* A method that mutates `this` takes the object and returns the updated object.
-/

namespace OsciRender

/-! ## Library functions used by the source -/

/-- The function `juce::jlimit (lowerLimit, upperLimit, valueToConstrain)`:
`valueToConstrain < lowerLimit ? lowerLimit
  : (upperLimit < valueToConstrain ? upperLimit : valueToConstrain)`. -/
def jlimit {α : Type} [LinearOrder α] (lowerLimit upperLimit valueToConstrain : α) : α :=
  if valueToConstrain < lowerLimit then lowerLimit
  else if upperLimit < valueToConstrain then upperLimit
  else valueToConstrain

/-- The function `juce::jmin (a, b)`: `b < a ? b : a`. -/
def jmin {α : Type} [LinearOrder α] (a b : α) : α :=
  if b < a then b else a

/-- The C++ conversion `(int) x` of a floating point number: the fractional part is
discarded (truncation toward zero). -/
def toInt (x : ℚ) : ℤ :=
  if 0 ≤ x then Int.floor x else Int.ceil x

/-! ## `FloatParameter` -/

/-- The data members of `class FloatParameter` (`name` and `paramID` are the members
inherited from `juce::AudioProcessorParameterWithID`). -/
structure FloatParameter where
  name : String
  paramID : String
  value : ℚ
  min : ℚ
  max : ℚ
  step : ℚ
  label : String
  deriving DecidableEq

namespace FloatParameter

/-- The method `float getNormalisedValue(float value) const`. -/
def getNormalisedValue (p : FloatParameter) (value : ℚ) : ℚ :=
  let min := p.min
  let max := p.max
  let value := jlimit min max value
  (value - min) / (max - min)

/-- The method `float getUnnormalisedValue(float value) const`. -/
def getUnnormalisedValue (p : FloatParameter) (value : ℚ) : ℚ :=
  let value := jlimit 0 1 value
  let min := p.min
  let max := p.max
  min + value * (max - min)

/-- The method `float getValue() const`. -/
def getValue (p : FloatParameter) : ℚ :=
  p.getNormalisedValue p.value

/-- The method `float getValueUnnormalised() const`. -/
def getValueUnnormalised (p : FloatParameter) : ℚ :=
  p.value

/-- The method `void setValue(float newValue)`. -/
def setValue (p : FloatParameter) (newValue : ℚ) : FloatParameter :=
  { p with value := p.getUnnormalisedValue newValue }

/-- The method `void setValueUnnormalised(float newValue)`. -/
def setValueUnnormalised (p : FloatParameter) (newValue : ℚ) : FloatParameter :=
  { p with value := newValue }

/-- The constructor `FloatParameter(name, id, value, min, max, step, label)`; the defaults
of the source are `step = 0.001` and `label = ""`. -/
def new (name id : String) (value min max step : ℚ) (label : String) : FloatParameter :=
  { name := name, paramID := id, value := value, min := min, max := max, step := step,
    label := label }

/-- The inherited method `juce::AudioProcessorParameter::setValueNotifyingHost(newValue)`:
it calls `setValue(newValue)` and then tells the listeners, which hold no state of the
parameter. -/
def setValueNotifyingHost (p : FloatParameter) (newValue : ℚ) : FloatParameter :=
  p.setValue newValue

/-- The method `void setUnnormalisedValueNotifyingHost(float newValue)`. -/
def setUnnormalisedValueNotifyingHost (p : FloatParameter) (newValue : ℚ) : FloatParameter :=
  p.setValueNotifyingHost (p.getNormalisedValue newValue)

end FloatParameter

/-! ## `IntParameter` -/

/-- The data members of `class IntParameter`. -/
structure IntParameter where
  name : String
  paramID : String
  value : ℤ
  min : ℤ
  max : ℤ
  deriving DecidableEq

namespace IntParameter

/-- The method `float getNormalisedValue(float value) const`: the argument is cast to `int`,
limited as an `int`, stored back into the `float` variable, and the division is a
floating point division (`float / int`). -/
def getNormalisedValue (p : IntParameter) (value : ℚ) : ℚ :=
  let min := p.min
  let max := p.max
  let value : ℚ := ((jlimit min max (toInt value) : ℤ) : ℚ)
  (value - (min : ℚ)) / (((max - min : ℤ)) : ℚ)

/-- The method `float getUnnormalisedValue(float value) const`. -/
def getUnnormalisedValue (p : IntParameter) (value : ℚ) : ℚ :=
  let value := jlimit 0 1 value
  let min := p.min
  let max := p.max
  (min : ℚ) + value * (((max - min : ℤ)) : ℚ)

/-- The method `float getValue() const`: the stored `int` is converted to `float`. -/
def getValue (p : IntParameter) : ℚ :=
  p.getNormalisedValue (p.value : ℚ)

end IntParameter

/-! ## `juce::XmlElement` -/

/-- The value of an XML attribute: a text, or a number written by the numeric overloads of
`setAttribute`. -/
inductive XmlValue where
  | text (s : String)
  | number (x : ℚ)
  deriving DecidableEq

/-- A `juce::XmlElement`: its tag name, its attributes in order, and its child elements in
order. -/
inductive XmlElement where
  | mk (tagName : String) (attributes : List (String × XmlValue)) (children : List XmlElement)

/-- The attribute list after `setAttribute(name, value)`: an attribute of that name gets
the new value in place, otherwise a new attribute is added at the end. -/
def setAttributeIn : List (String × XmlValue) → String → XmlValue → List (String × XmlValue)
  | [], name, value => [(name, value)]
  | (n, w) :: rest, name, value =>
    if n = name then (n, value) :: rest else (n, w) :: setAttributeIn rest name value

/-- The value of the first attribute called `name` in an attribute list. -/
def getAttributeIn : List (String × XmlValue) → String → Option XmlValue
  | [], _ => none
  | (n, w) :: rest, name => if n = name then some w else getAttributeIn rest name

namespace XmlElement

/-- The tag name of an element. -/
def tagName : XmlElement → String
  | mk t _ _ => t

/-- The attributes of an element. -/
def attributes : XmlElement → List (String × XmlValue)
  | mk _ a _ => a

/-- The child elements of an element. -/
def children : XmlElement → List XmlElement
  | mk _ _ c => c

/-- The method `XmlElement::setAttribute(name, value)`. -/
def setAttribute : XmlElement → String → XmlValue → XmlElement
  | mk t a c, name, value => mk t (setAttributeIn a name value) c

/-- The value of the attribute `name`, if the element has one. -/
def getAttribute (xml : XmlElement) (name : String) : Option XmlValue :=
  getAttributeIn xml.attributes name

/-- The method `XmlElement::addChildElement(child)`: the child is added after the existing
children. -/
def addChildElement : XmlElement → XmlElement → XmlElement
  | mk t a c, child => mk t a (c ++ [child])

end XmlElement

namespace FloatParameter

/-- The method `void save(juce::XmlElement* xml)`, returning the element as written. -/
def save (p : FloatParameter) (xml : XmlElement) : XmlElement :=
  let xml := xml.setAttribute "id" (XmlValue.text p.paramID)
  let xml := xml.setAttribute "value" (XmlValue.number p.value)
  let xml := xml.setAttribute "min" (XmlValue.number p.min)
  let xml := xml.setAttribute "max" (XmlValue.number p.max)
  xml.setAttribute "step" (XmlValue.number p.step)

end FloatParameter

/-! ## `LfoType` and `LfoTypeParameter` -/

/-- The enumeration `enum class LfoType : int`. -/
inductive LfoType where
  | Static
  | Sine
  | Square
  | Seesaw
  | Triangle
  | Sawtooth
  | ReverseSawtooth
  | Noise
  deriving DecidableEq

namespace LfoType

/-- The conversion `(int) type`: the enumerator values `Static = 1`, ..., `Noise = 8`. -/
def toInt : LfoType → ℤ
  | Static => 1
  | Sine => 2
  | Square => 3
  | Seesaw => 4
  | Triangle => 5
  | Sawtooth => 6
  | ReverseSawtooth => 7
  | Noise => 8

/-- The conversion `(LfoType) n`: the enumerator with value `n`, or `none` when `n` is the
value of no enumerator (the `default` label of a `switch`). -/
def ofInt (n : ℤ) : Option LfoType :=
  if n = 1 then some Static
  else if n = 2 then some Sine
  else if n = 3 then some Square
  else if n = 4 then some Seesaw
  else if n = 5 then some Triangle
  else if n = 6 then some Sawtooth
  else if n = 7 then some ReverseSawtooth
  else if n = 8 then some Noise
  else none

end LfoType

/-- The class `LfoTypeParameter`, an `IntParameter` with no further data members. -/
structure LfoTypeParameter extends IntParameter where
  deriving DecidableEq

namespace LfoTypeParameter

/-- The constructor `LfoTypeParameter(name, id, value) : IntParameter(name, id, value, 1, 8)`. -/
def new (name id : String) (value : ℤ) : LfoTypeParameter :=
  { name := name, paramID := id, value := value, min := 1, max := 8 }

/-- The method `juce::String getText(float value, int maximumStringLength) const`: a
`switch` over `(LfoType)(int) getUnnormalisedValue(value)`; the length is not used. -/
def getText (p : LfoTypeParameter) (value : ℚ) (_maximumStringLength : ℤ) : String :=
  match LfoType.ofInt (OsciRender.toInt (p.getUnnormalisedValue value)) with
  | some LfoType.Static => "Static"
  | some LfoType.Sine => "Sine"
  | some LfoType.Square => "Square"
  | some LfoType.Seesaw => "Seesaw"
  | some LfoType.Triangle => "Triangle"
  | some LfoType.Sawtooth => "Sawtooth"
  | some LfoType.ReverseSawtooth => "Reverse Sawtooth"
  | some LfoType.Noise => "Noise"
  | none => "Unknown"

/-- The method `float getValueForText(const juce::String& text) const`: a chain of exact
comparisons, each returning the enumerator value `(int) LfoType::...` as a `float`. -/
def getValueForText (_p : LfoTypeParameter) (text : String) : ℚ :=
  if text = "Static" then ((LfoType.toInt LfoType.Static : ℤ) : ℚ)
  else if text = "Sine" then ((LfoType.toInt LfoType.Sine : ℤ) : ℚ)
  else if text = "Square" then ((LfoType.toInt LfoType.Square : ℤ) : ℚ)
  else if text = "Seesaw" then ((LfoType.toInt LfoType.Seesaw : ℤ) : ℚ)
  else if text = "Triangle" then ((LfoType.toInt LfoType.Triangle : ℤ) : ℚ)
  else if text = "Sawtooth" then ((LfoType.toInt LfoType.Sawtooth : ℤ) : ℚ)
  else if text = "Reverse Sawtooth" then ((LfoType.toInt LfoType.ReverseSawtooth : ℤ) : ℚ)
  else if text = "Noise" then ((LfoType.toInt LfoType.Noise : ℤ) : ℚ)
  else ((LfoType.toInt LfoType.Static : ℤ) : ℚ)

/-- The method `void save(juce::XmlElement* xml)`. -/
def save (p : LfoTypeParameter) (xml : XmlElement) : XmlElement :=
  xml.setAttribute "lfo" (XmlValue.text (p.getText p.getValue 100))

end LfoTypeParameter

/-! ## `EffectParameter` -/

/-- The data members of `class EffectParameter`, a `FloatParameter`; the owning pointers
`lfo` and `lfoRate` are `none` when they are `nullptr`. -/
structure EffectParameter extends FloatParameter where
  smoothValueChange : Bool
  lfo : Option LfoTypeParameter
  lfoRate : Option FloatParameter
  phase : ℚ
  deriving DecidableEq

/-- An element of a `std::vector<juce::AudioProcessorParameter*>`: the object pointed to,
by its class. -/
inductive AudioProcessorParameter where
  | effectParameter (p : EffectParameter)
  | lfoTypeParameter (p : LfoTypeParameter)
  | floatParameter (p : FloatParameter)
  deriving DecidableEq

namespace EffectParameter

/-- The constructor `EffectParameter(name, id, value, min, max, step, smoothValueChange)`
(defaults `step = 0.001`, `smoothValueChange = true`) together with the default member
initialisers of `lfo`, `lfoRate` and `phase`, which run after the base class is built. -/
def new (name id : String) (value min max step : ℚ) (smoothValueChange : Bool) :
    EffectParameter :=
  let base := FloatParameter.new name id value min max step ""
  { toFloatParameter := base,
    smoothValueChange := smoothValueChange,
    lfo := some (LfoTypeParameter.new (base.name ++ " LFO") (base.paramID ++ "Lfo") 1),
    lfoRate := some (FloatParameter.new (base.name ++ " LFO Rate") (base.paramID ++ "LfoRate")
      1 0 100 (1 / 10) "Hz"),
    phase := 0 }

/-- The method `std::vector<juce::AudioProcessorParameter*> getParameters()`. -/
def getParameters (e : EffectParameter) : List AudioProcessorParameter :=
  let parameters := [AudioProcessorParameter.effectParameter e]
  let parameters :=
    match e.lfo with
    | some l => parameters ++ [AudioProcessorParameter.lfoTypeParameter l]
    | none => parameters
  match e.lfoRate with
  | some r => parameters ++ [AudioProcessorParameter.floatParameter r]
  | none => parameters

/-- The method `void disableLfo()`; `delete` of a null pointer does nothing. -/
def disableLfo (e : EffectParameter) : EffectParameter :=
  { e with lfo := none, lfoRate := none }

/-- The method `void save(juce::XmlElement* xml)`. The child element made by
`createNewChildElement("lfo")` is written through its pointer after it was added; here it
is written first and then added, which gives the same element. -/
def save (e : EffectParameter) (xml : XmlElement) : XmlElement :=
  let xml := e.toFloatParameter.save xml
  match e.lfo, e.lfoRate with
  | some lfo, some lfoRate =>
    let lfoXml := XmlElement.mk "lfo" [] []
    let lfoXml := lfo.save lfoXml
    let lfoXml := lfoRate.save lfoXml
    xml.addChildElement lfoXml
  | _, _ => xml

/-- The non-const member functions that can be called on an `EffectParameter`: those of
the class itself and those it inherits from `FloatParameter`. -/
inductive Operation where
  | setValue (newValue : ℚ)
  | setValueUnnormalised (newValue : ℚ)
  | setUnnormalisedValueNotifyingHost (newValue : ℚ)
  | getParameters
  | disableLfo
  | save (xml : XmlElement)

/-- The effect of one member function call on the parameter. -/
def call (e : EffectParameter) : Operation → EffectParameter
  | Operation.setValue v => { e with toFloatParameter := e.toFloatParameter.setValue v }
  | Operation.setValueUnnormalised v =>
    { e with toFloatParameter := e.toFloatParameter.setValueUnnormalised v }
  | Operation.setUnnormalisedValueNotifyingHost v =>
    { e with toFloatParameter := e.toFloatParameter.setUnnormalisedValueNotifyingHost v }
  | Operation.getParameters => e
  | Operation.disableLfo => e.disableLfo
  | Operation.save _ => e

/-- The effect of a sequence of member function calls, first call first. -/
def run (e : EffectParameter) (ops : List Operation) : EffectParameter :=
  ops.foldl call e

end EffectParameter

/-! ## `PerspectiveEffect` -/

namespace PerspectiveEffect

/-- The method `float linearSpeedToActualSpeed(float rotateSpeed)`. The library function
`std::exp` is the argument `exp`; over the real numbers it is `Real.exp`. -/
def linearSpeedToActualSpeed {K : Type} [LinearOrderedField K] (exp : K → K)
    (rotateSpeed : K) : K :=
  (exp (3 * jmin 10 |rotateSpeed|) - 1) / 50000

end PerspectiveEffect

/-! ## Shapes and points built by `FileParser` -/

/-- A `double` that is a rational multiple of `std::numbers::pi`: `⟨q⟩` stands for
`q * pi`. It keeps the two angle arguments of the fallback arc exact and comparable. -/
structure PiMultiple where
  coeff : ℚ
  deriving DecidableEq

/-- The constructor arguments of `CircleArc(x, y, radiusX, radiusY, startAngle, endAngle)`
as `FileParser::nextFrame` passes them. -/
structure CircleArc where
  x : ℚ
  y : ℚ
  radiusX : ℚ
  radiusY : ℚ
  startAngle : PiMultiple
  endAngle : PiMultiple
  deriving DecidableEq

/-- An element of a `std::vector<std::unique_ptr<Shape>>`: either the arc that
`FileParser::nextFrame` builds itself, or a shape of type `S` drawn by a decoder. -/
inductive Shape (S : Type) where
  | circleArc (arc : CircleArc)
  | drawn (shape : S)
  deriving DecidableEq

/-- Modelled from the spec: `class Vector2` of `Source/shape/Vector2.h` is a pair of
coordinates, and its default constructor `Vector2()` gives the point `(0, 0)` ("if the
script yields fewer than two numeric results, returns `(0, 0)`"). -/
structure Vector2 where
  x : ℚ := 0
  y : ℚ := 0
  deriving DecidableEq

/-! ## The decoders owned by `FileParser` -/

/-- The decoder classes used by `FileParser` (`WorldObject`, `Camera`, `SvgParser`,
`TextParser`, `LuaParser`) are defined in other files; they enter as parameters.
A constructor returns `none` when it throws. Member functions that may mutate the decoder
return the updated decoder next to their result. -/
structure Decoders where
  WorldObject : Type
  Camera : Type
  SvgParser : Type
  TextParser : Type
  LuaParser : Type
  DrawnShape : Type
  /-- The constructor `WorldObject(std::string)`. -/
  newWorldObject : String → Option WorldObject
  /-- The constructor `Camera(focalLength, x, y, z)`. -/
  newCamera : ℚ → ℚ → ℚ → ℚ → Camera
  /-- The call `camera->findZPos(*object)`. -/
  findZPos : Camera → WorldObject → Camera
  /-- The constructor `SvgParser(juce::String)`. -/
  newSvgParser : String → Option SvgParser
  /-- The constructor `TextParser(juce::String, juce::Font)`; the font is given by its height. -/
  newTextParser : String → ℚ → Option TextParser
  /-- The constructor `LuaParser(juce::String)`. -/
  newLuaParser : String → Option LuaParser
  /-- The call `camera->draw(*object)`. -/
  cameraDraw : Camera → WorldObject → List DrawnShape × Camera × WorldObject
  /-- The call `svg->draw()`. -/
  svgDraw : SvgParser → List DrawnShape × SvgParser
  /-- The call `text->draw()`. -/
  textDraw : TextParser → List DrawnShape × TextParser
  /-- The call `lua->run()`. -/
  luaRun : LuaParser → List ℚ × LuaParser

/-- How a call that may throw ends: it returns, or an exception leaves it; either way the
object is left in the state `s`. -/
inductive Outcome (σ : Type) where
  | returned (s : σ)
  | threw (s : σ)

namespace Outcome

/-- The state the object is left in. -/
def state {σ : Type} : Outcome σ → σ
  | returned s => s
  | threw s => s

end Outcome

/-! ## `FileParser` -/

/-- The data members of `class FileParser`; a `std::shared_ptr` is `none` when it is
`nullptr`. -/
structure FileParser (D : Decoders) where
  object : Option D.WorldObject
  camera : Option D.Camera
  svg : Option D.SvgParser
  text : Option D.TextParser
  lua : Option D.LuaParser
  sampleSource : Bool
  active : Bool

namespace FileParser

variable {D : Decoders}

/-- The constructor `FileParser::FileParser() {}`: every `shared_ptr` starts as `nullptr`;
the initial values of the two flags come from the class declaration, which is a
parameter here. -/
def new (D : Decoders) (sampleSource active : Bool) : FileParser D :=
  { object := none, camera := none, svg := none, text := none, lua := none,
    sampleSource := sampleSource, active := active }

/-- The last statement of `FileParser::parse`: `sampleSource = lua != nullptr;`. -/
def setSampleSource (p : FileParser D) : FileParser D :=
  { p with sampleSource := p.lua.isSome }

/-- The method `void FileParser::parse(juce::String extension,
std::unique_ptr<juce::InputStream> stream)`; `stream` is the text that
`stream->readEntireStreamAsString()` yields. -/
def parse (p : FileParser D) (extension : String) (stream : String) :
    Outcome (FileParser D) :=
  let p : FileParser D :=
    { p with object := none, camera := none, svg := none, text := none, lua := none }
  if extension = ".obj" then
    match D.newWorldObject stream with
    | none => Outcome.threw p
    | some o =>
      let p := { p with object := some o }
      let p := { p with camera := some (D.newCamera 1 0 0 0) }
      let p := { p with camera := p.camera.map (fun c => D.findZPos c o) }
      Outcome.returned (setSampleSource p)
  else if extension = ".svg" then
    match D.newSvgParser stream with
    | none => Outcome.threw p
    | some s => Outcome.returned (setSampleSource { p with svg := some s })
  else if extension = ".txt" then
    match D.newTextParser stream 1 with
    | none => Outcome.threw p
    | some t => Outcome.returned (setSampleSource { p with text := some t })
  else if extension = ".lua" then
    match D.newLuaParser stream with
    | none => Outcome.threw p
    | some l => Outcome.returned (setSampleSource { p with lua := some l })
  else
    Outcome.returned (setSampleSource p)

/-- The shape list `tempShapes` built at the end of `FileParser::nextFrame`. -/
def tempShapes (S : Type) : List (Shape S) :=
  [Shape.circleArc
    { x := 0, y := 0, radiusX := 1 / 2, radiusY := 1 / 2,
      startAngle := ⟨1 / 4⟩, endAngle := ⟨2⟩ }]

/-- The method `std::vector<std::unique_ptr<Shape>> FileParser::nextFrame()`, returning
the frame and the parser with the decoder that drew it updated. -/
def nextFrame (p : FileParser D) : List (Shape D.DrawnShape) × FileParser D :=
  match p.object, p.camera with
  | some o, some c =>
    let r := D.cameraDraw c o
    (r.1.map Shape.drawn, { p with camera := some r.2.1, object := some r.2.2 })
  | _, _ =>
    match p.svg with
    | some s =>
      let r := D.svgDraw s
      (r.1.map Shape.drawn, { p with svg := some r.2 })
    | none =>
      match p.text with
      | some t =>
        let r := D.textDraw t
        (r.1.map Shape.drawn, { p with text := some r.2 })
      | none => (tempShapes D.DrawnShape, p)

/-- The method `Vector2 FileParser::nextSample()`. When `lua` is `nullptr` control reaches
the end of the function without a `return` statement, so no value is produced: `none`. -/
def nextSample (p : FileParser D) : Option Vector2 × FileParser D :=
  match p.lua with
  | some l =>
    let r := D.luaRun l
    let values := r.1
    let p := { p with lua := some r.2 }
    if h : values.length < 2 then
      (some {}, p)
    else
      (some { x := values[0], y := values[1] }, p)
  | none => (none, p)

/-- The method `bool FileParser::isSample()`. -/
def isSample (p : FileParser D) : Bool :=
  p.sampleSource

/-- The method `bool FileParser::isActive()`. -/
def isActive (p : FileParser D) : Bool :=
  p.active

/-- The method `void FileParser::disable()`. -/
def disable (p : FileParser D) : FileParser D :=
  { p with active := false }

/-- The method `void FileParser::enable()`. -/
def enable (p : FileParser D) : FileParser D :=
  { p with active := true }

end FileParser

/-! ## `OscirenderAudioProcessorEditor::keyPressed` -/

/-- The parts of a `juce::KeyPress` that `keyPressed` reads: `getTextCharacter()`,
`getKeyCode()`, and the modifiers `isCommandDown()` and `isShiftDown()`. -/
structure KeyPress where
  textCharacter : Char
  keyCode : ℤ
  commandDown : Bool
  shiftDown : Bool
  deriving DecidableEq

/-- The project function that `keyPressed` calls for a keyboard shortcut. -/
inductive ProjectAction where
  | saveProjectAs
  | saveProject
  | openProject
  deriving DecidableEq

/-- What a call of `keyPressed` does: the argument of `audioProcessor.changeCurrentFile`
when it is called (followed by `fileUpdated`), the project function called, and the
returned `consumeKey`. -/
structure KeyPressedResult where
  changeCurrentFile : Option ℤ
  projectAction : Option ProjectAction
  consumeKey : Bool
  deriving DecidableEq

/-- The local variables `currentFile`, `changedFile` and `consumeKey` of `keyPressed`. -/
structure KeyPressedLocals where
  currentFile : ℤ
  changedFile : Bool
  consumeKey : Bool

/-- The method `bool OscirenderAudioProcessorEditor::keyPressed(const juce::KeyPress& key)`;
`numFiles` is `audioProcessor.numFiles()` and `currentFileIndex` is
`audioProcessor.getCurrentFileIndex()`. -/
def keyPressed (numFiles currentFileIndex : ℤ) (key : KeyPress) : KeyPressedResult :=
  let start : KeyPressedLocals :=
    { currentFile := currentFileIndex, changedFile := false, consumeKey := false }
  let locals : KeyPressedLocals :=
    if key.textCharacter = 'j' then
      if numFiles > 1 then
        let currentFile := start.currentFile + 1
        let currentFile := if currentFile = numFiles then 0 else currentFile
        { currentFile := currentFile, changedFile := true, consumeKey := true }
      else
        { start with consumeKey := true }
    else if key.textCharacter = 'k' then
      if numFiles > 1 then
        let currentFile := start.currentFile - 1
        let currentFile := if currentFile < 0 then numFiles - 1 else currentFile
        { currentFile := currentFile, changedFile := true, consumeKey := true }
      else
        { start with consumeKey := true }
    else
      start
  let projectAction : Option ProjectAction :=
    if key.commandDown && key.shiftDown && decide (key.keyCode = ('S'.toNat : ℤ)) then
      some ProjectAction.saveProjectAs
    else if key.commandDown && decide (key.keyCode = ('S'.toNat : ℤ)) then
      some ProjectAction.saveProject
    else if key.commandDown && decide (key.keyCode = ('O'.toNat : ℤ)) then
      some ProjectAction.openProject
    else
      none
  { changeCurrentFile := if locals.changedFile then some locals.currentFile else none,
    projectAction := projectAction,
    consumeKey := locals.consumeKey }

/-! ## The code editors of `OscirenderAudioProcessorEditor` -/

/-- The call `v.insert(v.begin() + index, x)` on a `std::vector`: defined when
`0 ≤ index ≤ v.size()`, `none` otherwise. -/
def vectorInsert {α : Type} (v : List α) (index : ℤ) (x : α) : Option (List α) :=
  if 0 ≤ index ∧ index ≤ (v.length : ℤ) then
    some (v.take index.toNat ++ x :: v.drop index.toNat)
  else none

/-- The call `v.erase(v.begin() + index)` on a `std::vector`: defined when
`0 ≤ index < v.size()`, `none` otherwise. -/
def vectorErase {α : Type} (v : List α) (index : ℤ) : Option (List α) :=
  if 0 ≤ index ∧ index < (v.length : ℤ) then some (v.eraseIdx index.toNat) else none

/-- The tokeniser members `luaTokeniser` and `xmlTokeniser` of the editor. -/
inductive CodeTokeniser where
  | luaTokeniser
  | xmlTokeniser
  deriving DecidableEq

/-- What an element of `codeDocuments` points to: the member `customFunctionCodeDocument`,
or a document made by `addCodeEditor` for the file `originalIndex`. -/
inductive CodeDocument where
  | customFunctionCodeDocument
  | created (originalIndex : ℤ)
  deriving DecidableEq

/-- What an element of `codeEditors` points to: the member `customFunctionCodeEditor`, or
an `OscirenderCodeEditorComponent` made by `addCodeEditor` from a tokeniser, a file id and
a file name. -/
inductive CodeEditor where
  | customFunctionCodeEditor
  | created (tokeniser : Option CodeTokeniser) (fileId : ℤ) (fileName : String)
  deriving DecidableEq

/-- The member functions of `OscirenderAudioProcessor` that the editor code reads; the
class is defined in another file. `numFiles` is the size of a vector. -/
structure AudioProcessor where
  numFiles : ℕ
  getFileName : ℤ → String
  getFileId : ℤ → ℤ

/-- The members `codeDocuments` and `codeEditors` of the editor. -/
structure CodeEditors where
  codeDocuments : List CodeDocument
  codeEditors : List CodeEditor
  deriving DecidableEq

/-- The function `juce::String::lastIndexOf` for a one-character text: the position of
the last occurrence of `c`, or `-1`. -/
def lastIndexOf : List Char → Char → ℤ
  | [], _ => -1
  | x :: xs, c =>
    let i := lastIndexOf xs c
    if 0 ≤ i then i + 1 else if x = c then 0 else -1

/-- The function `juce::String::fromLastOccurrenceOf(sub, includeSubStringInResult, false)`
for a one-character `sub`: the text from the last occurrence of `sub` on, and the whole
text when `sub` does not occur. -/
def fromLastOccurrenceOf (text : String) (sub : Char) (includeSubStringInResult : Bool) :
    String :=
  let i := lastIndexOf text.toList sub
  if i < 0 then text
  else String.mk (text.toList.drop (if includeSubStringInResult then i else i + 1).toNat)

namespace CodeEditors

/-- The index expression `editingCustomFunction ? 0 : audioProcessor.getCurrentFileIndex() + 1`
of `resized`, `updateCodeEditor` and the click handler of the collapse button. -/
def editorIndex (editingCustomFunction : Bool) (currentFileIndex : ℤ) : ℤ :=
  if editingCustomFunction then 0 else currentFileIndex + 1

/-- The method `void addCodeEditor(int index)`, as far as the two vectors go; `none` when
an insert position is outside its vector. -/
def addCodeEditor (audioProcessor : AudioProcessor) (s : CodeEditors) (index : ℤ) :
    Option CodeEditors :=
  let originalIndex := index
  let index := index + 1
  let codeDocument : CodeDocument :=
    if index = 0 then CodeDocument.customFunctionCodeDocument
    else CodeDocument.created originalIndex
  let editor : CodeEditor :=
    if index = 0 then CodeEditor.customFunctionCodeEditor
    else
      let extension := fromLastOccurrenceOf (audioProcessor.getFileName originalIndex) '.' true
      let tokeniser : Option CodeTokeniser :=
        if extension = ".lua" then some CodeTokeniser.luaTokeniser
        else if extension = ".svg" then some CodeTokeniser.xmlTokeniser
        else none
      CodeEditor.created tokeniser (audioProcessor.getFileId originalIndex)
        (audioProcessor.getFileName originalIndex)
  match vectorInsert s.codeDocuments index codeDocument with
  | none => none
  | some codeDocuments =>
    match vectorInsert s.codeEditors index editor with
    | none => none
    | some codeEditors => some { codeDocuments := codeDocuments, codeEditors := codeEditors }

/-- The method `void removeCodeEditor(int index)`; `none` when an erase position is outside
its vector. -/
def removeCodeEditor (s : CodeEditors) (index : ℤ) : Option CodeEditors :=
  let index := index + 1
  match vectorErase s.codeEditors index with
  | none => none
  | some codeEditors =>
    match vectorErase s.codeDocuments index with
    | none => none
    | some codeDocuments => some { codeDocuments := codeDocuments, codeEditors := codeEditors }

/-- The loop `for (int i = 0; i < audioProcessor.numFiles(); i++) addCodeEditor(i);`, run
for the indices in `files`. -/
def addCodeEditors (audioProcessor : AudioProcessor) :
    CodeEditors → List ℕ → Option CodeEditors
  | s, [] => some s
  | s, i :: rest =>
    match addCodeEditor audioProcessor s (i : ℤ) with
    | none => none
    | some s => addCodeEditors audioProcessor s rest

/-- The method `void initialiseCodeEditors()`, as far as the two vectors go (the closing
call of `fileUpdated` leaves them alone). -/
def initialiseCodeEditors (audioProcessor : AudioProcessor) : Option CodeEditors :=
  let cleared : CodeEditors := { codeDocuments := [], codeEditors := [] }
  match addCodeEditor audioProcessor cleared (-1) with
  | none => none
  | some s => addCodeEditors audioProcessor s (List.range audioProcessor.numFiles)

end CodeEditors

/-! ## `SettingsComponent::fileUpdated` -/

namespace SettingsComponent

/-- The method `void SettingsComponent::fileUpdated(juce::String fileName)`, as far as the
visibility of the text settings `txt` goes: the result is `txt.isVisible()` after the
call. The first `if` has an empty body and the second `if` is a statement of its own, not
an `else` branch. -/
def fileUpdated (objectServerRendering : Bool) (fileName : String) : Bool :=
  let extension := fromLastOccurrenceOf fileName '.' true
  let txtVisible := false
  let txtVisible :=
    if fileName.isEmpty || objectServerRendering then txtVisible else txtVisible
  if extension = ".txt" then true else txtVisible

end SettingsComponent

/-! ## A small concrete set of decoders

Used to run the parser on concrete inputs. A world object, an SVG document and a text are
kept as their source text, and a source text that is empty is rejected by the
constructor; a script is the list of numbers it returns on every run. -/

/-- The numbers a toy script returns: one number per character, its code point. -/
def toyScriptValues (source : String) : List ℚ :=
  source.toList.map (fun c => (c.toNat : ℚ))

/-- Concrete decoders for evaluation. -/
def toyDecoders : Decoders where
  WorldObject := String
  Camera := ℚ × ℚ × ℚ × ℚ
  SvgParser := String
  TextParser := String
  LuaParser := List ℚ
  DrawnShape := String
  newWorldObject := fun s => if s = "" then none else some s
  newCamera := fun f x y z => (f, x, y, z)
  findZPos := fun c o => (c.1, c.2.1, c.2.2.1, -(o.length : ℚ))
  newSvgParser := fun s => if s = "" then none else some s
  newTextParser := fun s _ => if s = "" then none else some s
  newLuaParser := fun s => if s = "" then none else some (toyScriptValues s)
  cameraDraw := fun c o => ([o], c, o)
  svgDraw := fun s => ([s], s)
  textDraw := fun t => ([t], t)
  luaRun := fun l => (l, l)

/-- A float parameter with range `[-1, 3]` whose raw value `7` lies outside the range. -/
def exampleFloat : FloatParameter :=
  { name := "Frequency", paramID := "frequency", value := 7, min := -1, max := 3,
    step := 1 / 1000, label := "Hz" }

/-- An integer parameter with range `[0, 10]`. -/
def exampleInt : IntParameter :=
  { name := "Octave", paramID := "octave", value := 0, min := 0, max := 10 }

/-- A parser over the toy decoders that holds a script returning `3, 4, 5`. -/
def exampleScriptParser : FileParser toyDecoders :=
  { object := none, camera := none, svg := none, text := none, lua := some [3, 4, 5],
    sampleSource := true, active := true }

/-- An LFO type parameter as the constructor of `EffectParameter` builds it, holding the
kind `3`. -/
def exampleLfo : LfoTypeParameter :=
  LfoTypeParameter.new "Rotate LFO" "rotateLfo" 3

/-- An effect parameter with range `[-1, 3]`, fresh from its constructor. -/
def exampleEffect : EffectParameter :=
  EffectParameter.new "Rotate" "rotate" 7 (-1) 3 (1 / 1000) true

/-- A float parameter whose range is the single point `1`: `min = max`. -/
def exampleFlatFloat : FloatParameter :=
  FloatParameter.new "Depth" "depth" 0 1 1 (1 / 1000) ""

/-- The key `j` with no modifier. -/
def exampleKeyJ : KeyPress :=
  { textCharacter := 'j', keyCode := 74, commandDown := false, shiftDown := false }

/-- The key `k` with no modifier. -/
def exampleKeyK : KeyPress :=
  { textCharacter := 'k', keyCode := 75, commandDown := false, shiftDown := false }

/-- A processor with the three files `a.lua`, `b.svg` and `c.txt`. -/
def exampleProcessor : AudioProcessor :=
  { numFiles := 3,
    getFileName := fun i => if i = 0 then "a.lua" else if i = 1 then "b.svg" else "c.txt",
    getFileId := fun i => i + 100 }

/-! ## Facts about the library functions -/

/-- With ordered limits `jlimit` is the usual clip. -/
theorem jlimit_eq_clip {α : Type} [LinearOrder α] (lo hi v : α) (h : lo ≤ hi) :
    jlimit lo hi v = Max.max lo (Min.min v hi) := by
  unfold jlimit
  split_ifs with h1 h2
  · rw [max_eq_left]
    exact le_trans (min_le_left _ _) (le_of_lt h1)
  · rw [min_eq_right (le_of_lt h2), max_eq_right h]
  · rw [min_eq_left (not_lt.mp h2), max_eq_right (not_lt.mp h1)]

theorem jlimit_ge {α : Type} [LinearOrder α] (lo hi v : α) (h : lo ≤ hi) :
    lo ≤ jlimit lo hi v := by
  rw [jlimit_eq_clip lo hi v h]
  exact le_max_left _ _

theorem jlimit_le {α : Type} [LinearOrder α] (lo hi v : α) (h : lo ≤ hi) :
    jlimit lo hi v ≤ hi := by
  rw [jlimit_eq_clip lo hi v h]
  exact max_le h (min_le_right _ _)

theorem jlimit_of_mem {α : Type} [LinearOrder α] (lo hi v : α) (h1 : lo ≤ v) (h2 : v ≤ hi) :
    jlimit lo hi v = v := by
  unfold jlimit
  rw [if_neg (not_lt.mpr h1), if_neg (not_lt.mpr h2)]

theorem toInt_intCast (n : ℤ) : toInt (n : ℚ) = n := by
  unfold toInt
  split_ifs <;> simp

namespace FloatParameter

/-- The normalised value lies in `[0, 1]` when `min < max`. -/
theorem getNormalisedValue_mem (p : FloatParameter) (h : p.min < p.max) (v : ℚ) :
    0 ≤ p.getNormalisedValue v ∧ p.getNormalisedValue v ≤ 1 := by
  have hd : 0 < p.max - p.min := sub_pos.mpr h
  have h1 := jlimit_ge p.min p.max v (le_of_lt h)
  have h2 := jlimit_le p.min p.max v (le_of_lt h)
  unfold getNormalisedValue
  constructor
  · exact div_nonneg (sub_nonneg.mpr h1) (le_of_lt hd)
  · rw [div_le_one hd]
    linarith

/-- The unnormalised value lies in `[min, max]` when `min ≤ max`. -/
theorem getUnnormalisedValue_mem (p : FloatParameter) (h : p.min ≤ p.max) (v : ℚ) :
    p.min ≤ p.getUnnormalisedValue v ∧ p.getUnnormalisedValue v ≤ p.max := by
  have hd : 0 ≤ p.max - p.min := sub_nonneg.mpr h
  have h1 := jlimit_ge (0 : ℚ) 1 v zero_le_one
  have h2 := jlimit_le (0 : ℚ) 1 v zero_le_one
  unfold getUnnormalisedValue
  simp only
  constructor
  · have := mul_nonneg h1 hd
    linarith
  · have := mul_nonneg (sub_nonneg.mpr h2) hd
    linarith

theorem float_unnormalise_normalise (p : FloatParameter) (h : p.min < p.max) (v : ℚ) :
    p.getUnnormalisedValue (p.getNormalisedValue v) = jlimit p.min p.max v := by
  obtain ⟨h0, h1⟩ := p.getNormalisedValue_mem h v
  have hd : p.max - p.min ≠ 0 := ne_of_gt (sub_pos.mpr h)
  unfold getUnnormalisedValue
  simp only
  rw [jlimit_of_mem 0 1 _ h0 h1]
  unfold getNormalisedValue
  simp only
  rw [div_mul_cancel₀ _ hd]
  ring

theorem float_normalise_unnormalise (p : FloatParameter) (h : p.min < p.max) (v : ℚ) :
    p.getNormalisedValue (p.getUnnormalisedValue v) = jlimit 0 1 v := by
  obtain ⟨h0, h1⟩ := p.getUnnormalisedValue_mem (le_of_lt h) v
  have hd : p.max - p.min ≠ 0 := ne_of_gt (sub_pos.mpr h)
  unfold getNormalisedValue
  simp only
  rw [jlimit_of_mem _ _ _ h0 h1]
  unfold getUnnormalisedValue
  simp only
  rw [add_sub_cancel_left, mul_div_assoc, div_self hd, mul_one]

end FloatParameter

/-! ## Round trips of `FloatParameter` -/

/-- C1: for a `FloatParameter` with `min < max` and every `v`,
`getUnnormalisedValue(getNormalisedValue(v))` is `v` clipped to `[min, max]`. -/
theorem FloatParameter.unnormalise_normalise_eq_clip (p : FloatParameter)
    (h : p.min < p.max) (v : ℚ) :
    p.getUnnormalisedValue (p.getNormalisedValue v) = Max.max p.min (Min.min v p.max) := by
  rw [p.float_unnormalise_normalise h v, jlimit_eq_clip _ _ _ (le_of_lt h)]

theorem FloatParameter.unnormalise_normalise_eq_clip_witness :
    exampleFloat.min < exampleFloat.max ∧
      exampleFloat.getUnnormalisedValue (exampleFloat.getNormalisedValue 7)
        = Max.max exampleFloat.min (Min.min 7 exampleFloat.max) :=
  ⟨by norm_num [exampleFloat],
    FloatParameter.unnormalise_normalise_eq_clip exampleFloat (by norm_num [exampleFloat]) 7⟩

/-- C2: for a `FloatParameter` with `min < max` and every `v`,
`getNormalisedValue(getUnnormalisedValue(v))` is `v` clipped to `[0, 1]`. -/
theorem FloatParameter.normalise_unnormalise_eq_clip (p : FloatParameter)
    (h : p.min < p.max) (v : ℚ) :
    p.getNormalisedValue (p.getUnnormalisedValue v) = Max.max 0 (Min.min v 1) := by
  rw [p.float_normalise_unnormalise h v, jlimit_eq_clip _ _ _ zero_le_one]

theorem FloatParameter.normalise_unnormalise_eq_clip_witness :
    exampleFloat.min < exampleFloat.max ∧
      exampleFloat.getNormalisedValue (exampleFloat.getUnnormalisedValue (3 / 2))
        = Max.max 0 (Min.min (3 / 2) 1) :=
  ⟨by norm_num [exampleFloat],
    FloatParameter.normalise_unnormalise_eq_clip exampleFloat (by norm_num [exampleFloat])
      (3 / 2)⟩

/-! ## Round trip of `IntParameter` -/

theorem toInt_five_halves : toInt (5 / 2) = 2 := by
  unfold toInt
  rw [if_pos (by norm_num), Int.floor_eq_iff]
  norm_num

/-- The round trip of an `IntParameter` gives the limited integer part of the argument. -/
theorem IntParameter.int_unnormalise_normalise (p : IntParameter) (h : p.min < p.max) (v : ℚ) :
    p.getUnnormalisedValue (p.getNormalisedValue v)
      = ((jlimit p.min p.max (toInt v) : ℤ) : ℚ) := by
  have hlo : ((p.min : ℤ) : ℚ) ≤ ((jlimit p.min p.max (toInt v) : ℤ) : ℚ) :=
    Int.cast_le.mpr (jlimit_ge p.min p.max (toInt v) (le_of_lt h))
  have hhi : ((jlimit p.min p.max (toInt v) : ℤ) : ℚ) ≤ ((p.max : ℤ) : ℚ) :=
    Int.cast_le.mpr (jlimit_le p.min p.max (toInt v) (le_of_lt h))
  have hlt : ((p.min : ℤ) : ℚ) < ((p.max : ℤ) : ℚ) := Int.cast_lt.mpr h
  have hd : (0 : ℚ) < (((p.max - p.min : ℤ)) : ℚ) := by
    rw [Int.cast_sub]
    linarith
  have h0 : (0 : ℚ) ≤ p.getNormalisedValue v := by
    unfold getNormalisedValue
    exact div_nonneg (by linarith) (le_of_lt hd)
  have h1 : p.getNormalisedValue v ≤ 1 := by
    unfold getNormalisedValue
    simp only
    rw [div_le_one hd, Int.cast_sub]
    linarith
  unfold getUnnormalisedValue
  simp only
  rw [jlimit_of_mem 0 1 _ h0 h1]
  unfold getNormalisedValue
  simp only
  rw [div_mul_cancel₀ _ (ne_of_gt hd)]
  ring

/-- C3, as stated, fails: with range `[0, 10]` the value `5 / 2` comes back as `2`, which
is not `5 / 2` clipped to the range. -/
theorem IntParameter.round_trip_counterexample :
    exampleInt.min < exampleInt.max ∧
      exampleInt.getUnnormalisedValue (exampleInt.getNormalisedValue (5 / 2)) = 2 ∧
      exampleInt.getUnnormalisedValue (exampleInt.getNormalisedValue (5 / 2))
        ≠ Max.max (exampleInt.min : ℚ) (Min.min (5 / 2) (exampleInt.max : ℚ)) := by
  have hval : exampleInt.getUnnormalisedValue (exampleInt.getNormalisedValue (5 / 2)) = 2 := by
    rw [IntParameter.int_unnormalise_normalise exampleInt (by decide), toInt_five_halves]
    norm_num [exampleInt, jlimit]
  refine ⟨by decide, hval, ?_⟩
  rw [hval]
  norm_num [exampleInt]

/-- C3 (amended): for an `IntParameter` with `min < max` and every `v`,
`getUnnormalisedValue(getNormalisedValue(v))` is the integer part `(int) v` clipped to
`[min, max]`; so for every integer `n` it is `n` clipped to `[min, max]`. -/
theorem IntParameter.unnormalise_normalise_eq_clip_toInt (p : IntParameter)
    (h : p.min < p.max) :
    (∀ v : ℚ, p.getUnnormalisedValue (p.getNormalisedValue v)
        = ((Max.max p.min (Min.min (toInt v) p.max) : ℤ) : ℚ)) ∧
    (∀ n : ℤ, p.getUnnormalisedValue (p.getNormalisedValue (n : ℚ))
        = Max.max (p.min : ℚ) (Min.min (n : ℚ) (p.max : ℚ))) := by
  have key : ∀ v : ℚ, p.getUnnormalisedValue (p.getNormalisedValue v)
      = ((Max.max p.min (Min.min (toInt v) p.max) : ℤ) : ℚ) := by
    intro v
    rw [p.int_unnormalise_normalise h v, jlimit_eq_clip _ _ _ (le_of_lt h)]
  refine ⟨key, ?_⟩
  intro n
  rw [key, toInt_intCast]
  push_cast
  rfl

theorem IntParameter.unnormalise_normalise_eq_clip_toInt_witness :
    exampleInt.min < exampleInt.max ∧
      exampleInt.getUnnormalisedValue (exampleInt.getNormalisedValue (-7 / 2))
        = ((Max.max exampleInt.min (Min.min (toInt (-7 / 2)) exampleInt.max) : ℤ) : ℚ) ∧
      exampleInt.getUnnormalisedValue (exampleInt.getNormalisedValue ((12 : ℤ) : ℚ))
        = Max.max (exampleInt.min : ℚ) (Min.min ((12 : ℤ) : ℚ) (exampleInt.max : ℚ)) :=
  ⟨by decide,
    (IntParameter.unnormalise_normalise_eq_clip_toInt exampleInt (by decide)).1 (-7 / 2),
    (IntParameter.unnormalise_normalise_eq_clip_toInt exampleInt (by decide)).2 12⟩

/-! ## Reading and writing the value of a `FloatParameter` -/

/-- C4: for a `FloatParameter` with `min < max` and any stored raw value, also one outside
`[min, max]`, `getValue()` lies in `[0, 1]` and is
`(clip(value, min, max) - min) / (max - min)`. -/
theorem FloatParameter.getValue_eq_rescaled_clip (p : FloatParameter) (h : p.min < p.max) :
    0 ≤ p.getValue ∧ p.getValue ≤ 1 ∧
      p.getValue = (Max.max p.min (Min.min p.value p.max) - p.min) / (p.max - p.min) := by
  obtain ⟨h0, h1⟩ := p.getNormalisedValue_mem h p.value
  refine ⟨h0, h1, ?_⟩
  unfold getValue getNormalisedValue
  simp only
  rw [jlimit_eq_clip _ _ _ (le_of_lt h)]

theorem FloatParameter.getValue_eq_rescaled_clip_witness :
    exampleFloat.min < exampleFloat.max ∧
      0 ≤ exampleFloat.getValue ∧ exampleFloat.getValue ≤ 1 ∧
      exampleFloat.getValue
        = (Max.max exampleFloat.min (Min.min exampleFloat.value exampleFloat.max)
            - exampleFloat.min) / (exampleFloat.max - exampleFloat.min) :=
  ⟨by norm_num [exampleFloat],
    FloatParameter.getValue_eq_rescaled_clip exampleFloat (by norm_num [exampleFloat])⟩

/-- C5: a raw write is neither rejected nor clipped: after `setValueUnnormalised(v)`, for
any `v` whatever the range, `getValueUnnormalised()` returns `v` itself, and `min`, `max`
and `step` (and every other member) keep their values. -/
theorem FloatParameter.setValueUnnormalised_stores_exactly (p : FloatParameter) (v : ℚ) :
    (p.setValueUnnormalised v).getValueUnnormalised = v ∧
      (p.setValueUnnormalised v).min = p.min ∧
      (p.setValueUnnormalised v).max = p.max ∧
      (p.setValueUnnormalised v).step = p.step ∧
      p.setValueUnnormalised v = { p with value := v } :=
  ⟨rfl, rfl, rfl, rfl, rfl⟩

/-- C6: for a `FloatParameter` with `min < max` and every `v`, after `setValue(v)` the call
`getValue()` returns `v` clipped to `[0, 1]`, and the stored raw value lies in
`[min, max]`. -/
theorem FloatParameter.getValue_setValue (p : FloatParameter) (h : p.min < p.max) (v : ℚ) :
    (p.setValue v).getValue = Max.max 0 (Min.min v 1) ∧
      (p.setValue v).min ≤ (p.setValue v).getValueUnnormalised ∧
      (p.setValue v).getValueUnnormalised ≤ (p.setValue v).max := by
  obtain ⟨hlo, hhi⟩ := p.getUnnormalisedValue_mem (le_of_lt h) v
  refine ⟨?_, hlo, hhi⟩
  have hget : (p.setValue v).getValue = p.getNormalisedValue (p.getUnnormalisedValue v) := rfl
  rw [hget, p.float_normalise_unnormalise h v, jlimit_eq_clip _ _ _ zero_le_one]

theorem FloatParameter.getValue_setValue_witness :
    exampleFloat.min < exampleFloat.max ∧
      (exampleFloat.setValue (-2)).getValue = Max.max 0 (Min.min (-2) 1) ∧
      (exampleFloat.setValue (-2)).min ≤ (exampleFloat.setValue (-2)).getValueUnnormalised ∧
      (exampleFloat.setValue (-2)).getValueUnnormalised ≤ (exampleFloat.setValue (-2)).max :=
  ⟨by norm_num [exampleFloat],
    FloatParameter.getValue_setValue exampleFloat (by norm_num [exampleFloat]) (-2)⟩

/-! ## `FileParser::parse` -/

namespace FileParser

variable {D : Decoders}

/-- What a returning `parse` leaves behind, by extension. -/
theorem parse_returned (p q : FileParser D) (extension stream : String)
    (h : p.parse extension stream = Outcome.returned q) :
    (extension = ".obj" ∧ (∃ o, D.newWorldObject stream = some o ∧ q.object = some o ∧
        q.camera = some (D.findZPos (D.newCamera 1 0 0 0) o)) ∧
        q.svg = none ∧ q.text = none ∧ q.lua = none ∧ q.sampleSource = false) ∨
    (extension = ".svg" ∧ q.object = none ∧ q.camera = none ∧
        (∃ s, D.newSvgParser stream = some s ∧ q.svg = some s) ∧
        q.text = none ∧ q.lua = none ∧ q.sampleSource = false) ∨
    (extension = ".txt" ∧ q.object = none ∧ q.camera = none ∧ q.svg = none ∧
        (∃ t, D.newTextParser stream 1 = some t ∧ q.text = some t) ∧
        q.lua = none ∧ q.sampleSource = false) ∨
    (extension = ".lua" ∧ q.object = none ∧ q.camera = none ∧ q.svg = none ∧
        q.text = none ∧ (∃ l, D.newLuaParser stream = some l ∧ q.lua = some l) ∧
        q.sampleSource = true) ∨
    (extension ≠ ".obj" ∧ extension ≠ ".svg" ∧ extension ≠ ".txt" ∧ extension ≠ ".lua" ∧
        q.object = none ∧ q.camera = none ∧ q.svg = none ∧ q.text = none ∧ q.lua = none ∧
        q.sampleSource = false) := by
  unfold parse at h
  simp only at h
  by_cases hobj : extension = ".obj"
  · rw [if_pos hobj] at h
    cases ho : D.newWorldObject stream with
    | none => rw [ho] at h; cases h
    | some o =>
      rw [ho] at h
      injection h with h
      subst h
      exact Or.inl ⟨hobj, ⟨o, rfl, rfl, rfl⟩, rfl, rfl, rfl, rfl⟩
  · rw [if_neg hobj] at h
    by_cases hsvg : extension = ".svg"
    · rw [if_pos hsvg] at h
      cases hs : D.newSvgParser stream with
      | none => rw [hs] at h; cases h
      | some s =>
        rw [hs] at h
        injection h with h
        subst h
        exact Or.inr (Or.inl ⟨hsvg, rfl, rfl, ⟨s, rfl, rfl⟩, rfl, rfl, rfl⟩)
    · rw [if_neg hsvg] at h
      by_cases htxt : extension = ".txt"
      · rw [if_pos htxt] at h
        cases ht : D.newTextParser stream 1 with
        | none => rw [ht] at h; cases h
        | some t =>
          rw [ht] at h
          injection h with h
          subst h
          exact Or.inr (Or.inr (Or.inl ⟨htxt, rfl, rfl, rfl, ⟨t, rfl, rfl⟩, rfl, rfl⟩))
      · rw [if_neg htxt] at h
        by_cases hlua : extension = ".lua"
        · rw [if_pos hlua] at h
          cases hl : D.newLuaParser stream with
          | none => rw [hl] at h; cases h
          | some l =>
            rw [hl] at h
            injection h with h
            subst h
            exact Or.inr (Or.inr (Or.inr (Or.inl
              ⟨hlua, rfl, rfl, rfl, rfl, ⟨l, rfl, rfl⟩, rfl⟩)))
        · rw [if_neg hlua] at h
          injection h with h
          subst h
          exact Or.inr (Or.inr (Or.inr (Or.inr
            ⟨hobj, hsvg, htxt, hlua, rfl, rfl, rfl, rfl, rfl, rfl⟩)))

/-- C7: after a `parse(extension, stream)` that returns, whatever the parser held before,
`".obj"` leaves the object and the camera and nothing else, `".svg"` the svg decoder only,
`".txt"` the text decoder only, `".lua"` the script only, each built from `stream`; any
other extension leaves none of the five set; so at most one decoder kind is active. -/
theorem parse_selects_decoder (p q : FileParser D) (extension stream : String)
    (h : p.parse extension stream = Outcome.returned q) :
    (extension = ".obj" → q.object = D.newWorldObject stream ∧ q.object.isSome = true ∧
        q.camera.isSome = true ∧ q.svg = none ∧ q.text = none ∧ q.lua = none) ∧
    (extension = ".svg" → q.object = none ∧ q.camera = none ∧
        q.svg = D.newSvgParser stream ∧ q.svg.isSome = true ∧ q.text = none ∧ q.lua = none) ∧
    (extension = ".txt" → q.object = none ∧ q.camera = none ∧ q.svg = none ∧
        q.text = D.newTextParser stream 1 ∧ q.text.isSome = true ∧ q.lua = none) ∧
    (extension = ".lua" → q.object = none ∧ q.camera = none ∧ q.svg = none ∧
        q.text = none ∧ q.lua = D.newLuaParser stream ∧ q.lua.isSome = true) ∧
    (extension ≠ ".obj" → extension ≠ ".svg" → extension ≠ ".txt" → extension ≠ ".lua" →
        q.object = none ∧ q.camera = none ∧ q.svg = none ∧ q.text = none ∧ q.lua = none) ∧
    (q.object.isSome || q.camera.isSome).toNat + q.svg.isSome.toNat + q.text.isSome.toNat
        + q.lua.isSome.toNat ≤ 1 := by
  rcases parse_returned p q extension stream h with
    ⟨he, ⟨o, ho, hq, hc⟩, h1, h2, h3, -⟩ | ⟨he, h1, h2, ⟨s, hs, hq⟩, h3, h4, -⟩ |
    ⟨he, h1, h2, h3, ⟨t, ht, hq⟩, h4, -⟩ | ⟨he, h1, h2, h3, h4, ⟨l, hl, hq⟩, -⟩ |
    ⟨n1, n2, n3, n4, h1, h2, h3, h4, h5, -⟩
  · subst he
    simp [ho, hq, hc, h1, h2, h3]
  · subst he
    simp [hs, hq, h1, h2, h3, h4]
  · subst he
    simp [ht, hq, h1, h2, h3, h4]
  · subst he
    simp [hl, hq, h1, h2, h3, h4]
  · simp [n1, n2, n3, n4, h1, h2, h3, h4, h5]

theorem parse_selects_decoder_witness :
    exampleScriptParser.parse ".svg" "<svg/>"
        = Outcome.returned
            { object := none, camera := none, svg := some "<svg/>", text := none, lua := none,
              sampleSource := false, active := true } ∧
      (exampleScriptParser.parse ".svg" "<svg/>").state.svg = some "<svg/>" ∧
      (exampleScriptParser.parse ".svg" "<svg/>").state.lua = none :=
  ⟨rfl,
    ((parse_selects_decoder exampleScriptParser _ ".svg" "<svg/>" rfl).2.1 rfl).2.2.1,
    ((parse_selects_decoder exampleScriptParser _ ".svg" "<svg/>" rfl).2.1 rfl).2.2.2.2.2⟩

/-- C8: after a `parse(extension, stream)` that returns, `isSample()` is true exactly when
`extension` is `".lua"`, whatever `isSample()` was before the call. -/
theorem isSample_parse (p q : FileParser D) (extension stream : String)
    (h : p.parse extension stream = Outcome.returned q) :
    q.isSample = true ↔ extension = ".lua" := by
  unfold isSample
  rcases parse_returned p q extension stream h with
    ⟨he, -, -, -, -, hs⟩ | ⟨he, -, -, -, -, -, hs⟩ | ⟨he, -, -, -, -, -, hs⟩ |
    ⟨he, -, -, -, -, -, hs⟩ | ⟨-, -, -, n4, -, -, -, -, -, hs⟩
  · subst he
    simp [hs]
  · subst he
    simp [hs]
  · subst he
    simp [hs]
  · subst he
    simp [hs]
  · simp [hs, n4]

theorem isSample_parse_witness :
    exampleScriptParser.parse ".txt" "hello"
        = Outcome.returned
            { object := none, camera := none, svg := none, text := some "hello", lua := none,
              sampleSource := false, active := true } ∧
      exampleScriptParser.isSample = true ∧
      ((exampleScriptParser.parse ".txt" "hello").state.isSample = true ↔ ".txt" = ".lua") :=
  ⟨rfl, rfl, isSample_parse exampleScriptParser _ ".txt" "hello" rfl⟩

/-! ## `FileParser::nextFrame` and `FileParser::nextSample` -/

/-- C9: when no geometric decoder is set (object and camera are not both set, and neither
svg nor text is set: a parser never parsed, parsed with an unknown extension, or holding a
script), `nextFrame()` returns exactly one shape, `CircleArc(0, 0, 0.5, 0.5, pi/4, 2*pi)`,
so never an empty sequence; the parser is left as it was. -/
theorem nextFrame_fallback (p : FileParser D)
    (hcam : ¬ (p.object.isSome = true ∧ p.camera.isSome = true))
    (hsvg : p.svg = none) (htext : p.text = none) :
    p.nextFrame.1 =
        [Shape.circleArc
          { x := 0, y := 0, radiusX := 1 / 2, radiusY := 1 / 2,
            startAngle := { coeff := 1 / 4 }, endAngle := { coeff := 2 } }] ∧
      p.nextFrame.1.length = 1 ∧ p.nextFrame.2 = p := by
  have hf : p.nextFrame = (tempShapes D.DrawnShape, p) := by
    unfold nextFrame
    cases ho : p.object with
    | none => simp [hsvg, htext]
    | some o =>
      cases hc : p.camera with
      | none => simp [hsvg, htext]
      | some c => simp [ho, hc] at hcam
  rw [hf]
  exact ⟨rfl, rfl, rfl⟩

theorem nextFrame_fallback_witness :
    ¬ (exampleScriptParser.object.isSome = true ∧ exampleScriptParser.camera.isSome = true) ∧
      exampleScriptParser.svg = none ∧ exampleScriptParser.text = none ∧
      exampleScriptParser.nextFrame.1 =
        [Shape.circleArc
          { x := 0, y := 0, radiusX := 1 / 2, radiusY := 1 / 2,
            startAngle := { coeff := 1 / 4 }, endAngle := { coeff := 2 } }] ∧
      exampleScriptParser.nextFrame.1.length = 1 ∧
      exampleScriptParser.nextFrame.2 = exampleScriptParser :=
  ⟨by simp [exampleScriptParser], rfl, rfl,
    nextFrame_fallback exampleScriptParser (by simp [exampleScriptParser]) rfl rfl⟩

/-- C10: for a parser whose active script `l` returns the numbers `vs` from `run()`,
`nextSample()` returns `(vs[0], vs[1])` when `vs` has at least two elements, whatever
follows them, and `(0, 0)` when `vs` has fewer than two elements. -/
theorem nextSample_script (p : FileParser D) (l : D.LuaParser) (h : p.lua = some l) :
    (∀ (x y : ℚ) (rest : List ℚ), (D.luaRun l).1 = x :: y :: rest →
        p.nextSample.1 = some { x := x, y := y }) ∧
    ((D.luaRun l).1.length < 2 → p.nextSample.1 = some { x := 0, y := 0 }) := by
  constructor
  · intro x y rest hvs
    have hlen : ¬ rest.length + 1 + 1 < 2 := by omega
    unfold nextSample
    simp [h, hvs, hlen]
  · intro hlen
    unfold nextSample
    simp [h, hlen]

theorem nextSample_script_witness :
    exampleScriptParser.lua = some [3, 4, 5] ∧
      exampleScriptParser.nextSample.1 = some { x := 3, y := 4 } :=
  ⟨rfl, (nextSample_script exampleScriptParser [3, 4, 5] rfl).1 3 4 [5] rfl⟩

end FileParser

/-! ## `FileParser`: failed construction, and the enabled flag -/

namespace FileParser

variable {D : Decoders}

/-- C11: if the decoder constructor throws inside `parse` for a recognised extension, the
call is left by the exception with none of object, camera, svg, text, lua set, whatever
was active before, and a following `nextFrame()` returns the fallback arc. -/
theorem parse_construction_fails (p : FileParser D) (extension stream : String)
    (hfail : (extension = ".obj" ∧ D.newWorldObject stream = none) ∨
      (extension = ".svg" ∧ D.newSvgParser stream = none) ∨
      (extension = ".txt" ∧ D.newTextParser stream 1 = none) ∨
      (extension = ".lua" ∧ D.newLuaParser stream = none)) :
    ∃ q, p.parse extension stream = Outcome.threw q ∧
      q.object = none ∧ q.camera = none ∧ q.svg = none ∧ q.text = none ∧ q.lua = none ∧
      q.nextFrame.1 =
        [Shape.circleArc
          { x := 0, y := 0, radiusX := 1 / 2, radiusY := 1 / 2,
            startAngle := { coeff := 1 / 4 }, endAngle := { coeff := 2 } }] := by
  refine ⟨{ p with object := none, camera := none, svg := none, text := none, lua := none },
    ?_, rfl, rfl, rfl, rfl, rfl, rfl⟩
  rcases hfail with ⟨he, hc⟩ | ⟨he, hc⟩ | ⟨he, hc⟩ | ⟨he, hc⟩
  · subst he
    simp [parse, hc]
  · subst he
    simp [parse, hc]
  · subst he
    simp [parse, hc]
  · subst he
    simp [parse, hc]

theorem parse_construction_fails_witness :
    ((".svg" = ".obj" ∧ toyDecoders.newWorldObject "" = none) ∨
      (".svg" = ".svg" ∧ toyDecoders.newSvgParser "" = none) ∨
      (".svg" = ".txt" ∧ toyDecoders.newTextParser "" 1 = none) ∨
      (".svg" = ".lua" ∧ toyDecoders.newLuaParser "" = none)) ∧
    ∃ q, exampleScriptParser.parse ".svg" "" = Outcome.threw q ∧
      q.object = none ∧ q.camera = none ∧ q.svg = none ∧ q.text = none ∧ q.lua = none ∧
      q.nextFrame.1 =
        [Shape.circleArc
          { x := 0, y := 0, radiusX := 1 / 2, radiusY := 1 / 2,
            startAngle := { coeff := 1 / 4 }, endAngle := { coeff := 2 } }] :=
  ⟨Or.inr (Or.inl ⟨rfl, rfl⟩),
    parse_construction_fails exampleScriptParser ".svg" "" (Or.inr (Or.inl ⟨rfl, rfl⟩))⟩

/-- C12: `disable()` and `enable()` change the active flag only: the five decoder handles
and `sampleSource` stay as they are, `isActive()` is false after `disable()` and true after
`enable()`, and `disable()` followed by `enable()` gives back the state of a parser that
was enabled. -/
theorem disable_enable_only_flag (p : FileParser D) :
    p.disable = { p with active := false } ∧ p.enable = { p with active := true } ∧
    (p.disable.object = p.object ∧ p.disable.camera = p.camera ∧ p.disable.svg = p.svg ∧
      p.disable.text = p.text ∧ p.disable.lua = p.lua ∧
      p.disable.sampleSource = p.sampleSource) ∧
    (p.enable.object = p.object ∧ p.enable.camera = p.camera ∧ p.enable.svg = p.svg ∧
      p.enable.text = p.text ∧ p.enable.lua = p.lua ∧
      p.enable.sampleSource = p.sampleSource) ∧
    p.disable.isActive = false ∧ p.enable.isActive = true ∧
    (p.isActive = true → p.disable.enable = p) := by
  refine ⟨rfl, rfl, ⟨rfl, rfl, rfl, rfl, rfl, rfl⟩, ⟨rfl, rfl, rfl, rfl, rfl, rfl⟩, rfl, rfl, ?_⟩
  intro h
  cases p
  simp only [isActive] at h
  subst h
  rfl

theorem disable_enable_only_flag_witness :
    exampleScriptParser.isActive = true ∧
      exampleScriptParser.disable.isActive = false ∧
      exampleScriptParser.disable.lua = some [3, 4, 5] ∧
      exampleScriptParser.disable.enable = exampleScriptParser :=
  ⟨rfl, (disable_enable_only_flag exampleScriptParser).2.2.2.2.1, rfl,
    (disable_enable_only_flag exampleScriptParser).2.2.2.2.2.2 rfl⟩

end FileParser

/-! ## `PerspectiveEffect::linearSpeedToActualSpeed` -/

theorem jmin_eq_min {α : Type} [LinearOrder α] (a b : α) : jmin a b = Min.min a b := by
  unfold jmin
  split_ifs with h
  · exact (min_eq_right (le_of_lt h)).symm
  · exact (min_eq_left (not_lt.mp h)).symm

namespace PerspectiveEffect

/-- The value of the speed mapping over the real numbers. -/
theorem linearSpeed_value (s : ℝ) :
    linearSpeedToActualSpeed Real.exp s = (Real.exp (3 * Min.min 10 |s|) - 1) / 50000 := by
  unfold linearSpeedToActualSpeed
  rw [jmin_eq_min]

/-- The speed mapping is never negative. -/
theorem linearSpeed_nonneg (s : ℝ) : 0 ≤ linearSpeedToActualSpeed Real.exp s := by
  rw [linearSpeed_value]
  have hmin : (0 : ℝ) ≤ Min.min 10 |s| := le_min (by norm_num) (abs_nonneg s)
  have hexp : 1 ≤ Real.exp (3 * Min.min 10 |s|) := Real.one_le_exp (by positivity)
  exact div_nonneg (by linarith) (by norm_num)

/-- The speed mapping is positive away from zero. -/
theorem linearSpeed_pos (s : ℝ) (hs : s ≠ 0) : 0 < linearSpeedToActualSpeed Real.exp s := by
  rw [linearSpeed_value]
  have hmin : (0 : ℝ) < Min.min 10 |s| := lt_min (by norm_num) (abs_pos.mpr hs)
  have hexp : 1 < Real.exp (3 * Min.min 10 |s|) := Real.one_lt_exp_iff.mpr (by positivity)
  exact div_pos (by linarith) (by norm_num)

/-- C13: for every real speed `s`, `linearSpeedToActualSpeed(s)` has magnitude
`(e^(3 * min(10, |s|)) - 1) / 50000`; it is `0` at `s = 0`, and for `|s| ≥ 10` it is the
constant `(e^30 - 1) / 50000`. -/
theorem linearSpeed_magnitude :
    (∀ s : ℝ, |linearSpeedToActualSpeed Real.exp s|
        = (Real.exp (3 * Min.min 10 |s|) - 1) / 50000) ∧
    linearSpeedToActualSpeed Real.exp (0 : ℝ) = 0 ∧
    (∀ s : ℝ, 10 ≤ |s| →
      linearSpeedToActualSpeed Real.exp s = (Real.exp 30 - 1) / 50000) := by
  refine ⟨?_, ?_, ?_⟩
  · intro s
    rw [abs_of_nonneg (linearSpeed_nonneg s), linearSpeed_value]
  · rw [linearSpeed_value]
    simp
  · intro s hs
    rw [linearSpeed_value, min_eq_left hs]
    norm_num

theorem linearSpeed_magnitude_witness :
    (10 : ℝ) ≤ |(-12 : ℝ)| ∧
      linearSpeedToActualSpeed Real.exp (-12 : ℝ) = (Real.exp 30 - 1) / 50000 :=
  ⟨by norm_num, linearSpeed_magnitude.2.2 (-12) (by norm_num)⟩

/-- C14, as stated, fails: the speed `-1` is negative and is mapped to a speed that is not
negative. -/
theorem linearSpeed_sign_counterexample :
    (-1 : ℝ) < 0 ∧ ¬ (linearSpeedToActualSpeed Real.exp (-1 : ℝ) < 0) :=
  ⟨by norm_num, not_lt.mpr (linearSpeed_nonneg (-1))⟩

/-- C14 (amended): the speed mapping does not see the sign of its argument: for every
real `s`, `linearSpeedToActualSpeed(-s) = linearSpeedToActualSpeed(s)`, the result is
never negative, and it is positive for every `s ≠ 0`, so in particular for every `s > 0`. -/
theorem linearSpeed_even_nonneg :
    (∀ s : ℝ, linearSpeedToActualSpeed Real.exp (-s) = linearSpeedToActualSpeed Real.exp s) ∧
    (∀ s : ℝ, 0 ≤ linearSpeedToActualSpeed Real.exp s) ∧
    (∀ s : ℝ, s ≠ 0 → 0 < linearSpeedToActualSpeed Real.exp s) ∧
    (∀ s : ℝ, 0 < s → 0 < linearSpeedToActualSpeed Real.exp s) := by
  refine ⟨?_, linearSpeed_nonneg, linearSpeed_pos, ?_⟩
  · intro s
    rw [linearSpeed_value, linearSpeed_value, abs_neg]
  · intro s hs
    exact linearSpeed_pos s (ne_of_gt hs)

theorem linearSpeed_even_nonneg_witness :
    (-1 : ℝ) ≠ 0 ∧ 0 < linearSpeedToActualSpeed Real.exp (-1 : ℝ) ∧
      linearSpeedToActualSpeed Real.exp (-(1 : ℝ)) = linearSpeedToActualSpeed Real.exp (1 : ℝ) :=
  ⟨by norm_num, linearSpeed_even_nonneg.2.2.1 (-1) (by norm_num),
    linearSpeed_even_nonneg.1 1⟩

end PerspectiveEffect

/-! ## `EffectParameter`: ownership of the LFO -/

namespace EffectParameter

/-- One member function call either keeps both LFO pointers or clears both. -/
theorem call_lfo (e : EffectParameter) (op : Operation) :
    ((e.call op).lfo = e.lfo ∧ (e.call op).lfoRate = e.lfoRate) ∨
      ((e.call op).lfo = none ∧ (e.call op).lfoRate = none) := by
  cases op
  · exact Or.inl ⟨rfl, rfl⟩
  · exact Or.inl ⟨rfl, rfl⟩
  · exact Or.inl ⟨rfl, rfl⟩
  · exact Or.inl ⟨rfl, rfl⟩
  · exact Or.inr ⟨rfl, rfl⟩
  · exact Or.inl ⟨rfl, rfl⟩

/-- Once both LFO pointers are null they stay null under any calls. -/
theorem run_lfo_none (ops : List Operation) (e : EffectParameter)
    (h1 : e.lfo = none) (h2 : e.lfoRate = none) :
    (e.run ops).lfo = none ∧ (e.run ops).lfoRate = none := by
  induction ops generalizing e with
  | nil => exact ⟨h1, h2⟩
  | cons op ops ih =>
    have hstep : (e.call op).lfo = none ∧ (e.call op).lfoRate = none := by
      rcases call_lfo e op with ⟨ha, hb⟩ | h
      · exact ⟨ha.trans h1, hb.trans h2⟩
      · exact h
    exact ih (e.call op) hstep.1 hstep.2

/-- Any calls keep the two LFO pointers both set or both null, if they start so. -/
theorem run_lfo_together (ops : List Operation) (e : EffectParameter)
    (h : e.lfo.isSome = e.lfoRate.isSome) :
    (e.run ops).lfo.isSome = (e.run ops).lfoRate.isSome := by
  induction ops generalizing e with
  | nil => exact h
  | cons op ops ih =>
    apply ih (e.call op)
    rcases call_lfo e op with ⟨ha, hb⟩ | ⟨ha, hb⟩
    · rw [ha, hb]
      exact h
    · rw [ha, hb]
      rfl

/-- C15: a newly constructed `EffectParameter` has both `lfo` and `lfoRate`, and
`getParameters()` returns itself, the LFO type and the LFO rate in that order; after
`disableLfo()` both are absent, `getParameters()` returns the parameter alone and a second
`disableLfo()` changes nothing; after `disableLfo()` no sequence of member function calls
makes either present again, and from construction on the two are always present together
or absent together. -/
theorem lfo_all_or_nothing :
    (∀ (name id : String) (value min max step : ℚ) (smooth : Bool),
      (EffectParameter.new name id value min max step smooth).lfo
          = some (LfoTypeParameter.new (name ++ " LFO") (id ++ "Lfo") 1) ∧
      (EffectParameter.new name id value min max step smooth).lfoRate
          = some (FloatParameter.new (name ++ " LFO Rate") (id ++ "LfoRate")
              1 0 100 (1 / 10) "Hz") ∧
      (EffectParameter.new name id value min max step smooth).getParameters
          = [AudioProcessorParameter.effectParameter
              (EffectParameter.new name id value min max step smooth),
            AudioProcessorParameter.lfoTypeParameter
              (LfoTypeParameter.new (name ++ " LFO") (id ++ "Lfo") 1),
            AudioProcessorParameter.floatParameter
              (FloatParameter.new (name ++ " LFO Rate") (id ++ "LfoRate")
                1 0 100 (1 / 10) "Hz")]) ∧
    (∀ e : EffectParameter,
      e.disableLfo.lfo = none ∧ e.disableLfo.lfoRate = none ∧
      e.disableLfo.getParameters = [AudioProcessorParameter.effectParameter e.disableLfo] ∧
      e.disableLfo.disableLfo = e.disableLfo) ∧
    (∀ (e : EffectParameter) (ops : List Operation),
      (e.disableLfo.run ops).lfo = none ∧ (e.disableLfo.run ops).lfoRate = none ∧
      (e.disableLfo.run ops).getParameters
        = [AudioProcessorParameter.effectParameter (e.disableLfo.run ops)]) ∧
    (∀ (name id : String) (value min max step : ℚ) (smooth : Bool) (ops : List Operation),
      ((EffectParameter.new name id value min max step smooth).run ops).lfo.isSome
        = ((EffectParameter.new name id value min max step smooth).run ops).lfoRate.isSome) := by
  refine ⟨?_, ?_, ?_, ?_⟩
  · intro name id value min max step smooth
    exact ⟨rfl, rfl, rfl⟩
  · intro e
    exact ⟨rfl, rfl, rfl, rfl⟩
  · intro e ops
    obtain ⟨h1, h2⟩ := run_lfo_none ops e.disableLfo rfl rfl
    refine ⟨h1, h2, ?_⟩
    unfold getParameters
    rw [h1, h2]
  · intro name id value min max step smooth ops
    exact run_lfo_together ops _ rfl

end EffectParameter

/-! ## The text of an `LfoTypeParameter` -/

/-- An integer inside the range of an `IntParameter` survives normalising, unnormalising
and the cast back to `int`. -/
theorem IntParameter.toInt_unnormalise_getValue (p : IntParameter) (h : p.min < p.max)
    (hlo : p.min ≤ p.value) (hhi : p.value ≤ p.max) :
    toInt (p.getUnnormalisedValue p.getValue) = p.value := by
  unfold IntParameter.getValue
  rw [p.int_unnormalise_normalise h, toInt_intCast, toInt_intCast, jlimit_of_mem _ _ _ hlo hhi]

/-- C17: for an `LfoTypeParameter` with the range `1..8` whose raw value is the kind `k`
in `1..8`, `getText(getValue(), 100)`, the text that `save` writes, is the name of `k`:
1 Static, 2 Sine, 3 Square, 4 Seesaw, 5 Triangle, 6 Sawtooth, 7 Reverse Sawtooth,
8 Noise (exact arithmetic). -/
theorem LfoTypeParameter.getText_getValue (p : LfoTypeParameter)
    (hmin : p.min = 1) (hmax : p.max = 8) :
    (p.value = 1 → p.getText p.getValue 100 = "Static") ∧
    (p.value = 2 → p.getText p.getValue 100 = "Sine") ∧
    (p.value = 3 → p.getText p.getValue 100 = "Square") ∧
    (p.value = 4 → p.getText p.getValue 100 = "Seesaw") ∧
    (p.value = 5 → p.getText p.getValue 100 = "Triangle") ∧
    (p.value = 6 → p.getText p.getValue 100 = "Sawtooth") ∧
    (p.value = 7 → p.getText p.getValue 100 = "Reverse Sawtooth") ∧
    (p.value = 8 → p.getText p.getValue 100 = "Noise") := by
  have key : ∀ k : ℤ, 1 ≤ k → k ≤ 8 → p.value = k →
      toInt (p.getUnnormalisedValue p.getValue) = k := by
    intro k h1 h8 hk
    rw [← hk]
    apply IntParameter.toInt_unnormalise_getValue
    · rw [hmin, hmax]
      norm_num
    · rw [hmin, hk]
      exact h1
    · rw [hmax, hk]
      exact h8
  refine ⟨?_, ?_, ?_, ?_, ?_, ?_, ?_, ?_⟩ <;>
  · intro hk
    unfold LfoTypeParameter.getText
    rw [key _ (by norm_num) (by norm_num) hk]
    rfl

theorem LfoTypeParameter.getText_getValue_witness :
    exampleLfo.min = 1 ∧ exampleLfo.max = 8 ∧ exampleLfo.value = 3 ∧
      exampleLfo.getText exampleLfo.getValue 100 = "Square" :=
  ⟨rfl, rfl, rfl, (LfoTypeParameter.getText_getValue exampleLfo rfl rfl).2.2.1 rfl⟩

/-! ## Saving parameters to XML -/

theorem getAttributeIn_set_same (a : List (String × XmlValue)) (name : String)
    (value : XmlValue) :
    getAttributeIn (setAttributeIn a name value) name = some value := by
  induction a with
  | nil => simp [setAttributeIn, getAttributeIn]
  | cons head rest ih =>
    obtain ⟨n, w⟩ := head
    by_cases h : n = name
    · simp [setAttributeIn, getAttributeIn, h]
    · simp [setAttributeIn, getAttributeIn, h, ih]

theorem getAttributeIn_set_other (a : List (String × XmlValue)) (name other : String)
    (value : XmlValue) (hne : name ≠ other) :
    getAttributeIn (setAttributeIn a name value) other = getAttributeIn a other := by
  induction a with
  | nil => simp [setAttributeIn, getAttributeIn, hne]
  | cons head rest ih =>
    obtain ⟨n, w⟩ := head
    by_cases h : n = name
    · subst h
      simp [setAttributeIn, getAttributeIn, hne]
    · by_cases h2 : n = other
      · subst h2
        simp [setAttributeIn, getAttributeIn, h]
      · simp [setAttributeIn, getAttributeIn, h, h2, ih]

namespace XmlElement

theorem getAttribute_setAttribute_same (xml : XmlElement) (name : String) (value : XmlValue) :
    (xml.setAttribute name value).getAttribute name = some value := by
  cases xml
  exact getAttributeIn_set_same _ _ _

theorem getAttribute_setAttribute_other (xml : XmlElement) (name other : String)
    (value : XmlValue) (hne : name ≠ other) :
    (xml.setAttribute name value).getAttribute other = xml.getAttribute other := by
  cases xml
  exact getAttributeIn_set_other _ _ _ _ hne

theorem children_setAttribute (xml : XmlElement) (name : String) (value : XmlValue) :
    (xml.setAttribute name value).children = xml.children := by
  cases xml
  rfl

theorem tagName_setAttribute (xml : XmlElement) (name : String) (value : XmlValue) :
    (xml.setAttribute name value).tagName = xml.tagName := by
  cases xml
  rfl

end XmlElement

/-- What `FloatParameter::save` leaves in the element. -/
theorem FloatParameter.save_attributes (p : FloatParameter) (xml : XmlElement) :
    (p.save xml).getAttribute "id" = some (XmlValue.text p.paramID) ∧
    (p.save xml).getAttribute "value" = some (XmlValue.number p.value) ∧
    (p.save xml).getAttribute "min" = some (XmlValue.number p.min) ∧
    (p.save xml).getAttribute "max" = some (XmlValue.number p.max) ∧
    (p.save xml).getAttribute "step" = some (XmlValue.number p.step) ∧
    (p.save xml).children = xml.children ∧ (p.save xml).tagName = xml.tagName := by
  unfold FloatParameter.save
  simp only
  refine ⟨?_, ?_, ?_, ?_, ?_, ?_, ?_⟩
  · rw [XmlElement.getAttribute_setAttribute_other _ _ _ _ (by decide),
      XmlElement.getAttribute_setAttribute_other _ _ _ _ (by decide),
      XmlElement.getAttribute_setAttribute_other _ _ _ _ (by decide),
      XmlElement.getAttribute_setAttribute_other _ _ _ _ (by decide),
      XmlElement.getAttribute_setAttribute_same]
  · rw [XmlElement.getAttribute_setAttribute_other _ _ _ _ (by decide),
      XmlElement.getAttribute_setAttribute_other _ _ _ _ (by decide),
      XmlElement.getAttribute_setAttribute_other _ _ _ _ (by decide),
      XmlElement.getAttribute_setAttribute_same]
  · rw [XmlElement.getAttribute_setAttribute_other _ _ _ _ (by decide),
      XmlElement.getAttribute_setAttribute_other _ _ _ _ (by decide),
      XmlElement.getAttribute_setAttribute_same]
  · rw [XmlElement.getAttribute_setAttribute_other _ _ _ _ (by decide),
      XmlElement.getAttribute_setAttribute_same]
  · rw [XmlElement.getAttribute_setAttribute_same]
  · simp only [XmlElement.children_setAttribute]
  · simp only [XmlElement.tagName_setAttribute]

namespace XmlElement

theorem getAttribute_addChildElement (xml child : XmlElement) (name : String) :
    (xml.addChildElement child).getAttribute name = xml.getAttribute name := by
  cases xml
  rfl

theorem children_addChildElement (xml child : XmlElement) :
    (xml.addChildElement child).children = xml.children ++ [child] := by
  cases xml
  rfl

theorem tagName_addChildElement (xml child : XmlElement) :
    (xml.addChildElement child).tagName = xml.tagName := by
  cases xml
  rfl

end XmlElement

/-- The child element that `EffectParameter::save` builds for the LFO. -/
theorem EffectParameter.save_lfo_child (lfo : LfoTypeParameter) (lfoRate : FloatParameter) :
    lfoRate.save (lfo.save (XmlElement.mk "lfo" [] []))
      = XmlElement.mk "lfo"
          [("lfo", XmlValue.text (lfo.getText lfo.getValue 100)),
            ("id", XmlValue.text lfoRate.paramID),
            ("value", XmlValue.number lfoRate.value),
            ("min", XmlValue.number lfoRate.min),
            ("max", XmlValue.number lfoRate.max),
            ("step", XmlValue.number lfoRate.step)] [] := by
  simp [FloatParameter.save, LfoTypeParameter.save, XmlElement.setAttribute, setAttributeIn]

/-- C16: `EffectParameter::save` writes the attributes `id`, `value`, `min`, `max` and
`step` of the parameter, `value` being the stored raw value as it is, clipped nowhere; it
adds one child element `lfo` exactly when both `lfo` and `lfoRate` are present, and that
child holds the text of the LFO type in the attribute `lfo` and the record of the LFO rate
parameter, its raw value in `value`; otherwise no child is added. -/
theorem EffectParameter.save_record (e : EffectParameter) (xml : XmlElement) :
    (e.save xml).getAttribute "id" = some (XmlValue.text e.paramID) ∧
    (e.save xml).getAttribute "value" = some (XmlValue.number e.value) ∧
    (e.save xml).getAttribute "min" = some (XmlValue.number e.min) ∧
    (e.save xml).getAttribute "max" = some (XmlValue.number e.max) ∧
    (e.save xml).getAttribute "step" = some (XmlValue.number e.step) ∧
    (e.save xml).tagName = xml.tagName ∧
    (∀ (lfo : LfoTypeParameter) (lfoRate : FloatParameter),
      e.lfo = some lfo → e.lfoRate = some lfoRate →
      (e.save xml).children = xml.children ++
        [XmlElement.mk "lfo"
          [("lfo", XmlValue.text (lfo.getText lfo.getValue 100)),
            ("id", XmlValue.text lfoRate.paramID),
            ("value", XmlValue.number lfoRate.value),
            ("min", XmlValue.number lfoRate.min),
            ("max", XmlValue.number lfoRate.max),
            ("step", XmlValue.number lfoRate.step)] []]) ∧
    (e.lfo = none ∨ e.lfoRate = none → (e.save xml).children = xml.children) := by
  obtain ⟨hid, hvalue, hmin, hmax, hstep, hchildren, htag⟩ :=
    FloatParameter.save_attributes e.toFloatParameter xml
  cases hl : e.lfo with
  | none =>
    have hsave : e.save xml = e.toFloatParameter.save xml := by
      unfold EffectParameter.save
      simp [hl]
    rw [hsave]
    refine ⟨hid, hvalue, hmin, hmax, hstep, htag, ?_, fun _ => hchildren⟩
    intro lfo lfoRate h
    cases h
  | some l =>
    cases hr : e.lfoRate with
    | none =>
      have hsave : e.save xml = e.toFloatParameter.save xml := by
        unfold EffectParameter.save
        simp [hl, hr]
      rw [hsave]
      refine ⟨hid, hvalue, hmin, hmax, hstep, htag, ?_, fun _ => hchildren⟩
      intro lfo lfoRate _ h
      cases h
    | some r =>
      have hsave : e.save xml = (e.toFloatParameter.save xml).addChildElement
          (r.save (l.save (XmlElement.mk "lfo" [] []))) := by
        unfold EffectParameter.save
        simp [hl, hr]
      rw [hsave]
      simp only [XmlElement.getAttribute_addChildElement, XmlElement.tagName_addChildElement,
        XmlElement.children_addChildElement]
      refine ⟨hid, hvalue, hmin, hmax, hstep, htag, ?_, ?_⟩
      · intro lfo lfoRate h1 h2
        cases h1
        cases h2
        rw [hchildren, EffectParameter.save_lfo_child]
      · intro h
        rcases h with h | h <;> cases h

theorem EffectParameter.save_record_witness :
    exampleEffect.lfo = some (LfoTypeParameter.new "Rotate LFO" "rotateLfo" 1) ∧
    exampleEffect.lfoRate
      = some (FloatParameter.new "Rotate LFO Rate" "rotateLfoRate" 1 0 100 (1 / 10) "Hz") ∧
    (exampleEffect.save (XmlElement.mk "parameter" [] [])).children =
      [XmlElement.mk "lfo"
        [("lfo", XmlValue.text ((LfoTypeParameter.new "Rotate LFO" "rotateLfo" 1).getText
            (LfoTypeParameter.new "Rotate LFO" "rotateLfo" 1).getValue 100)),
          ("id", XmlValue.text "rotateLfoRate"),
          ("value", XmlValue.number 1),
          ("min", XmlValue.number 0),
          ("max", XmlValue.number 100),
          ("step", XmlValue.number (1 / 10))] []] ∧
    (exampleEffect.save (XmlElement.mk "parameter" [] [])).getAttribute "value"
      = some (XmlValue.number 7) :=
  ⟨rfl, rfl,
    (EffectParameter.save_record exampleEffect (XmlElement.mk "parameter" [] [])).2.2.2.2.2.2.1
      _ _ rfl rfl,
    (EffectParameter.save_record exampleEffect (XmlElement.mk "parameter" [] [])).2.1⟩

/-! ## `FileParser`: states without a script -/

namespace FileParser

variable {D : Decoders}

/-- Without a script `nextSample()` produces no value and leaves the parser as it is. -/
theorem nextSample_of_lua_none (p : FileParser D) (h : p.lua = none) :
    p.nextSample = (none, p) := by
  unfold nextSample
  rw [h]

/-- C19 on the code: on a parser that was never parsed no script is set, and
`nextSample()` reaches the end of its body without a `return`: it yields no value, so in
particular not `(0, 0)`. The same holds after a parse with an unknown extension. -/
theorem nextSample_no_script_no_value :
    (FileParser.new toyDecoders false true).lua = none ∧
    (FileParser.new toyDecoders false true).nextSample.1 = none ∧
    (FileParser.new toyDecoders false true).nextSample.1 ≠ some { x := 0, y := 0 } ∧
    ((FileParser.new toyDecoders false true).parse ".png" "data").state.nextSample.1 = none :=
  ⟨rfl, rfl, fun h => Option.noConfusion (h : (none : Option Vector2) = some _), rfl⟩

/-- Every call that returns keeps `isSample()` equal to "a script is set": `parse`
establishes it, and `enable`, `disable`, `nextFrame` and `nextSample` preserve it. -/
theorem sampleSource_tracks_lua_when_returning (p : FileParser D) :
    (∀ (extension stream : String) (q : FileParser D),
      p.parse extension stream = Outcome.returned q → q.isSample = q.lua.isSome) ∧
    (p.isSample = p.lua.isSome →
      p.enable.isSample = p.enable.lua.isSome ∧ p.disable.isSample = p.disable.lua.isSome ∧
      p.nextFrame.2.isSample = p.nextFrame.2.lua.isSome ∧
      p.nextSample.2.isSample = p.nextSample.2.lua.isSome) := by
  constructor
  · intro extension stream q h
    unfold isSample
    rcases parse_returned p q extension stream h with
      ⟨-, -, -, -, hl, hs⟩ | ⟨-, -, -, -, -, hl, hs⟩ | ⟨-, -, -, -, -, hl, hs⟩ |
      ⟨-, -, -, -, -, ⟨l, -, hl⟩, hs⟩ | ⟨-, -, -, -, -, -, -, -, hl, hs⟩ <;>
    · rw [hl, hs]
      rfl
  · intro h
    refine ⟨h, h, ?_, ?_⟩
    · unfold nextFrame
      split
      · exact h
      · split
        · exact h
        · split
          · exact h
          · exact h
    · unfold nextSample
      split
      · rename_i l hl
        unfold isSample at h ⊢
        rw [hl] at h
        simp only
        split <;> exact h
      · exact h

/-- C20 on the code: a fresh parser takes a script by `parse(".lua", ...)`, after which
`isSample()` is true and `lua` is set; a following `parse(".svg", ...)` whose decoder
constructor throws leaves `lua` null while `isSample()` still answers true, and
`nextSample()` then has no value to return. -/
theorem sampleSource_stale_after_failed_parse :
    ∃ p q : FileParser toyDecoders,
      (FileParser.new toyDecoders false true).parse ".lua" "ab" = Outcome.returned p ∧
      p.isSample = true ∧ p.lua = some [97, 98] ∧
      toyDecoders.newSvgParser "" = none ∧
      p.parse ".svg" "" = Outcome.threw q ∧
      q.isSample = true ∧ q.lua = none ∧ q.nextSample.1 = none :=
  ⟨{ object := none, camera := none, svg := none, text := none, lua := some [97, 98],
      sampleSource := true, active := true },
    { object := none, camera := none, svg := none, text := none, lua := none,
      sampleSource := true, active := true },
    rfl, rfl, rfl, rfl, rfl, rfl, rfl, rfl⟩

end FileParser

/-! ## `FileParser::parse` and the enabled flag -/

/-- C21: `parse`, with any extension and whether it returns or is left by an exception,
leaves `isActive()` as it was: a disabled parser stays disabled and an enabled one stays
enabled. -/
theorem FileParser.isActive_parse {D : Decoders} (p : FileParser D)
    (extension stream : String) :
    (p.parse extension stream).state.isActive = p.isActive := by
  unfold FileParser.parse FileParser.isActive
  simp only
  split_ifs
  · cases D.newWorldObject stream <;> rfl
  · cases D.newSvgParser stream <;> rfl
  · cases D.newTextParser stream 1 <;> rfl
  · cases D.newLuaParser stream <;> rfl
  · rfl

/-! ## Names and values of `LfoTypeParameter` -/

/-- C22: the eight names are pairwise distinct, `getValueForText` maps the name of each
kind `k` in `1..8` to `k`, and every other text to `1` (Static). -/
theorem LfoTypeParameter.getValueForText_names (p : LfoTypeParameter) :
    ["Static", "Sine", "Square", "Seesaw", "Triangle", "Sawtooth", "Reverse Sawtooth",
      "Noise"].Nodup ∧
    p.getValueForText "Static" = 1 ∧ p.getValueForText "Sine" = 2 ∧
    p.getValueForText "Square" = 3 ∧ p.getValueForText "Seesaw" = 4 ∧
    p.getValueForText "Triangle" = 5 ∧ p.getValueForText "Sawtooth" = 6 ∧
    p.getValueForText "Reverse Sawtooth" = 7 ∧ p.getValueForText "Noise" = 8 ∧
    (∀ text : String,
      text ∉ ["Static", "Sine", "Square", "Seesaw", "Triangle", "Sawtooth",
        "Reverse Sawtooth", "Noise"] →
      p.getValueForText text = 1) := by
  refine ⟨by decide, ?_, ?_, ?_, ?_, ?_, ?_, ?_, ?_, ?_⟩
  · simp [LfoTypeParameter.getValueForText, LfoType.toInt]
  · simp [LfoTypeParameter.getValueForText, LfoType.toInt]
  · simp [LfoTypeParameter.getValueForText, LfoType.toInt]
  · simp [LfoTypeParameter.getValueForText, LfoType.toInt]
  · simp [LfoTypeParameter.getValueForText, LfoType.toInt]
  · simp [LfoTypeParameter.getValueForText, LfoType.toInt]
  · simp [LfoTypeParameter.getValueForText, LfoType.toInt]
  · simp [LfoTypeParameter.getValueForText, LfoType.toInt]
  · intro text h
    simp only [List.mem_cons, List.mem_singleton, not_or, List.not_mem_nil, or_false] at h
    obtain ⟨h1, h2, h3, h4, h5, h6, h7, h8⟩ := h
    simp [LfoTypeParameter.getValueForText, LfoType.toInt, h1, h2, h3, h4, h5, h6, h7, h8]

theorem LfoTypeParameter.getValueForText_names_witness :
    "Sinus" ∉ ["Static", "Sine", "Square", "Seesaw", "Triangle", "Sawtooth",
        "Reverse Sawtooth", "Noise"] ∧
      exampleLfo.getValueForText "Sinus" = 1 ∧ exampleLfo.getValueForText "Seesaw" = 4 :=
  ⟨by decide, (LfoTypeParameter.getValueForText_names exampleLfo).2.2.2.2.2.2.2.2.2 "Sinus"
      (by decide),
    (LfoTypeParameter.getValueForText_names exampleLfo).2.2.2.2.1⟩

/-- With the range `1..8`, `getText` of any value from `1` upwards is `"Noise"`. -/
theorem LfoTypeParameter.getText_of_one_le (p : LfoTypeParameter)
    (hmin : p.min = 1) (hmax : p.max = 8) (v : ℚ) (hv : 1 ≤ v) (n : ℤ) :
    p.getText v n = "Noise" := by
  have hj : jlimit (0 : ℚ) 1 v = 1 := by
    unfold jlimit
    rw [if_neg (by linarith)]
    split_ifs with h
    · rfl
    · linarith
  have hu : p.getUnnormalisedValue v = ((8 : ℤ) : ℚ) := by
    unfold IntParameter.getUnnormalisedValue
    simp only
    rw [hj, hmin, hmax]
    norm_num
  unfold LfoTypeParameter.getText
  rw [hu, toInt_intCast]
  rfl

/-- C23 on the code: with the range `1..8`, `getValueForText("Sine")` is the raw kind `2`,
and `getText` reads `2` as a normalised value, limits it to `1` and answers `"Noise"`, not
`"Sine"`. -/
theorem LfoTypeParameter.getText_getValueForText_sine :
    exampleLfo.min = 1 ∧ exampleLfo.max = 8 ∧
    exampleLfo.getValueForText "Sine" = 2 ∧
    exampleLfo.getText (exampleLfo.getValueForText "Sine") 100 = "Noise" ∧
    exampleLfo.getText (exampleLfo.getValueForText "Sine") 100 ≠ "Sine" := by
  have hv : exampleLfo.getValueForText "Sine" = 2 := by
    simp [LfoTypeParameter.getValueForText, LfoType.toInt]
  have ht : exampleLfo.getText (exampleLfo.getValueForText "Sine") 100 = "Noise" := by
    rw [hv]
    exact LfoTypeParameter.getText_of_one_le exampleLfo rfl rfl 2 (by norm_num) 100
  refine ⟨rfl, rfl, hv, ht, ?_⟩
  rw [ht]
  decide

/-- The integer part of a number in `[1, 8]` lies in `1..8`. -/
theorem toInt_mem_of_mem (u : ℚ) (h1 : 1 ≤ u) (h8 : u ≤ 8) : 1 ≤ toInt u ∧ toInt u ≤ 8 := by
  unfold toInt
  rw [if_pos (by linarith)]
  constructor
  · exact Int.le_floor.mpr (by exact_mod_cast h1)
  · have h := Int.floor_le u
    have h' : ((Int.floor u : ℤ) : ℚ) ≤ ((8 : ℤ) : ℚ) := by
      push_cast
      linarith
    exact Int.cast_le.mp h'

/-- C24: with the range `1..8`, for every value `v`, inside `[0, 1]` or not, `getText` is
one of the eight names and never `"Unknown"`. -/
theorem LfoTypeParameter.getText_total (p : LfoTypeParameter)
    (hmin : p.min = 1) (hmax : p.max = 8) (v : ℚ) (n : ℤ) :
    p.getText v n ∈ ["Static", "Sine", "Square", "Seesaw", "Triangle", "Sawtooth",
        "Reverse Sawtooth", "Noise"] ∧
      p.getText v n ≠ "Unknown" := by
  have h0 := jlimit_ge (0 : ℚ) 1 v zero_le_one
  have h1 := jlimit_le (0 : ℚ) 1 v zero_le_one
  have hu : 1 ≤ p.getUnnormalisedValue v ∧ p.getUnnormalisedValue v ≤ 8 := by
    unfold IntParameter.getUnnormalisedValue
    simp only
    rw [hmin, hmax]
    norm_num
    constructor <;> linarith
  obtain ⟨hlo, hhi⟩ := toInt_mem_of_mem _ hu.1 hu.2
  unfold LfoTypeParameter.getText
  generalize toInt (p.getUnnormalisedValue v) = k at hlo hhi
  interval_cases k <;> simp [LfoType.ofInt]

theorem LfoTypeParameter.getText_total_witness :
    exampleLfo.min = 1 ∧ exampleLfo.max = 8 ∧
      exampleLfo.getText (-3) 100 ∈ ["Static", "Sine", "Square", "Seesaw", "Triangle",
        "Sawtooth", "Reverse Sawtooth", "Noise"] ∧
      exampleLfo.getText (-3) 100 ≠ "Unknown" :=
  ⟨rfl, rfl, LfoTypeParameter.getText_total exampleLfo rfl rfl (-3) 100⟩

/-! ## The divisor of the normalisation, and the host-notifying setter -/

/-- C25, as stated, fails: a parameter constructed with `min = max = 1` satisfies
`min ≤ max`, and the divisor `max - min` of `getNormalisedValue` is zero. -/
theorem FloatParameter.divisor_zero_counterexample :
    exampleFlatFloat = FloatParameter.new "Depth" "depth" 0 1 1 (1 / 1000) "" ∧
    exampleFlatFloat.min ≤ exampleFlatFloat.max ∧
    exampleFlatFloat.max - exampleFlatFloat.min = 0 ∧
    jlimit exampleFlatFloat.min exampleFlatFloat.max exampleFlatFloat.value
      - exampleFlatFloat.min = 0 := by
  refine ⟨rfl, ?_, ?_, ?_⟩
  · norm_num [exampleFlatFloat, FloatParameter.new]
  · norm_num [exampleFlatFloat, FloatParameter.new]
  · norm_num [exampleFlatFloat, FloatParameter.new, jlimit]

/-- C25 (amended): for every `FloatParameter` state with `min < max`, however it was
reached, the divisor `max - min` of `getNormalisedValue` is not zero and `getValue()` lies
in `[0, 1]`; among the states with `min ≤ max` the divisor is zero exactly when
`min = max`. -/
theorem FloatParameter.divisor_ne_zero (p : FloatParameter) :
    (p.min < p.max → p.max - p.min ≠ 0 ∧ 0 ≤ p.getValue ∧ p.getValue ≤ 1) ∧
    (p.min ≤ p.max → (p.max - p.min = 0 ↔ p.min = p.max)) := by
  constructor
  · intro h
    obtain ⟨h0, h1⟩ := p.getNormalisedValue_mem h p.value
    exact ⟨ne_of_gt (sub_pos.mpr h), h0, h1⟩
  · intro _
    constructor
    · intro h
      linarith
    · intro h
      rw [h, sub_self]

theorem FloatParameter.divisor_ne_zero_witness :
    exampleFloat.min < exampleFloat.max ∧
      exampleFloat.max - exampleFloat.min ≠ 0 ∧ 0 ≤ exampleFloat.getValue ∧
      exampleFloat.getValue ≤ 1 :=
  ⟨by norm_num [exampleFloat],
    (FloatParameter.divisor_ne_zero exampleFloat).1 (by norm_num [exampleFloat])⟩

/-- C26: for a `FloatParameter` with `min < max` and every `v`, after
`setUnnormalisedValueNotifyingHost(v)` the call `getValueUnnormalised()` returns `v`
clipped to `[min, max]`, while after `setValueUnnormalised(v)` it returns `v` itself. -/
theorem FloatParameter.setUnnormalisedValueNotifyingHost_clips (p : FloatParameter)
    (h : p.min < p.max) (v : ℚ) :
    (p.setUnnormalisedValueNotifyingHost v).getValueUnnormalised
        = Max.max p.min (Min.min v p.max) ∧
      (p.setValueUnnormalised v).getValueUnnormalised = v := by
  refine ⟨?_, rfl⟩
  have hset : (p.setUnnormalisedValueNotifyingHost v).getValueUnnormalised
      = p.getUnnormalisedValue (p.getNormalisedValue v) := rfl
  rw [hset, p.float_unnormalise_normalise h v, jlimit_eq_clip _ _ _ (le_of_lt h)]

theorem FloatParameter.setUnnormalisedValueNotifyingHost_clips_witness :
    exampleFloat.min < exampleFloat.max ∧
      (exampleFloat.setUnnormalisedValueNotifyingHost 5).getValueUnnormalised
        = Max.max exampleFloat.min (Min.min 5 exampleFloat.max) ∧
      (exampleFloat.setValueUnnormalised 5).getValueUnnormalised = 5 :=
  ⟨by norm_num [exampleFloat],
    FloatParameter.setUnnormalisedValueNotifyingHost_clips exampleFloat
      (by norm_num [exampleFloat]) 5⟩

/-! ## Cycling through the files with `j` and `k` -/

/-- The file that `keyPressed` selects for the key `j`. -/
theorem keyPressed_j (numFiles c : ℤ) (key : KeyPress) (hkey : key.textCharacter = 'j')
    (hn : 1 < numFiles) (h0 : 0 ≤ c) (hc : c < numFiles) :
    (keyPressed numFiles c key).changeCurrentFile = some ((c + 1) % numFiles) := by
  have hn' : numFiles > 1 := hn
  unfold keyPressed
  simp only [hkey, if_true, hn']
  by_cases hlast : c + 1 = numFiles
  · simp [hlast]
  · simp only [hlast, if_false]
    rw [Int.emod_eq_of_lt (by omega) (by omega)]

/-- The file that `keyPressed` selects for the key `k`. -/
theorem keyPressed_k (numFiles c : ℤ) (key : KeyPress) (hkey : key.textCharacter = 'k')
    (hn : 1 < numFiles) (h0 : 0 ≤ c) (hc : c < numFiles) :
    (keyPressed numFiles c key).changeCurrentFile = some ((c - 1) % numFiles) := by
  have hn' : numFiles > 1 := hn
  have hjk : ¬ ('k' : Char) = 'j' := by decide
  unfold keyPressed
  simp only [hkey, hjk, if_true, if_false, hn']
  by_cases hfirst : c - 1 < 0
  · have hc0 : c = 0 := by omega
    subst hc0
    simp only [hfirst, if_true]
    have h1 : ((0 : ℤ) - 1) % numFiles = numFiles - 1 := by
      have h2 : ((0 : ℤ) - 1) = (numFiles - 1) + numFiles * (-1) := by ring
      rw [h2, Int.add_mul_emod_self_left, Int.emod_eq_of_lt (by omega) (by omega)]
    rw [h1]
  · simp only [hfirst, if_false]
    rw [Int.emod_eq_of_lt (by omega) (by omega)]

/-- C27: with more than one file and the current index `c` in `[0, numFiles)`, `j` selects
`(c + 1) mod numFiles` and `k` selects `(c - 1) mod numFiles`, both in `[0, numFiles)`,
and `k` pressed on the file that `j` selected selects `c` again; with at most one file no
file is selected; and the key is reported consumed exactly when it is `j` or `k`. -/
theorem keyPressed_cycles (numFiles c : ℤ) (key : KeyPress) :
    (1 < numFiles → 0 ≤ c → c < numFiles →
      (key.textCharacter = 'j' →
        (keyPressed numFiles c key).changeCurrentFile = some ((c + 1) % numFiles)) ∧
      (key.textCharacter = 'k' →
        (keyPressed numFiles c key).changeCurrentFile = some ((c - 1) % numFiles)) ∧
      (0 ≤ (c + 1) % numFiles ∧ (c + 1) % numFiles < numFiles) ∧
      (0 ≤ (c - 1) % numFiles ∧ (c - 1) % numFiles < numFiles) ∧
      (∀ keyJ keyK : KeyPress, keyJ.textCharacter = 'j' → keyK.textCharacter = 'k' →
        ∃ selected, (keyPressed numFiles c keyJ).changeCurrentFile = some selected ∧
          (keyPressed numFiles selected keyK).changeCurrentFile = some c)) ∧
    (numFiles ≤ 1 → (keyPressed numFiles c key).changeCurrentFile = none) ∧
    ((keyPressed numFiles c key).consumeKey = true ↔
      key.textCharacter = 'j' ∨ key.textCharacter = 'k') := by
  refine ⟨?_, ?_, ?_⟩
  · intro hn h0 hc
    have hpos : (0 : ℤ) < numFiles := by omega
    have hne : numFiles ≠ 0 := by omega
    refine ⟨fun hkey => keyPressed_j numFiles c key hkey hn h0 hc,
      fun hkey => keyPressed_k numFiles c key hkey hn h0 hc,
      ⟨Int.emod_nonneg _ hne, Int.emod_lt_of_pos _ hpos⟩,
      ⟨Int.emod_nonneg _ hne, Int.emod_lt_of_pos _ hpos⟩, ?_⟩
    intro keyJ keyK hj hk
    refine ⟨(c + 1) % numFiles, keyPressed_j numFiles c keyJ hj hn h0 hc, ?_⟩
    rw [keyPressed_k numFiles _ keyK hk hn (Int.emod_nonneg _ hne) (Int.emod_lt_of_pos _ hpos)]
    congr 1
    rw [Int.sub_emod, Int.emod_emod_of_dvd _ (dvd_refl _), ← Int.sub_emod, add_sub_cancel_right,
      Int.emod_eq_of_lt h0 hc]
  · intro hn
    have hn' : ¬ numFiles > 1 := by omega
    unfold keyPressed
    by_cases hj : key.textCharacter = 'j'
    · simp [hj, hn']
    · by_cases hk : key.textCharacter = 'k'
      · simp [hj, hk, hn']
      · simp [hj, hk]
  · unfold keyPressed
    by_cases hj : key.textCharacter = 'j'
    · by_cases hn : numFiles > 1 <;> simp [hj, hn]
    · by_cases hk : key.textCharacter = 'k'
      · by_cases hn : numFiles > 1 <;> simp [hj, hk, hn]
      · simp [hj, hk]

theorem keyPressed_cycles_witness :
    (1 : ℤ) < 3 ∧ (0 : ℤ) ≤ 2 ∧ (2 : ℤ) < 3 ∧ exampleKeyJ.textCharacter = 'j' ∧
      (keyPressed 3 2 exampleKeyJ).changeCurrentFile = some ((2 + 1) % 3) ∧
      (keyPressed 3 2 exampleKeyJ).changeCurrentFile = some 0 ∧
      (keyPressed 3 0 exampleKeyK).changeCurrentFile = some 2 ∧
      ((1 : ℤ) ≤ 1 ∧ (keyPressed 1 0 exampleKeyJ).changeCurrentFile = none) :=
  ⟨by decide, by decide, by decide, rfl,
    ((keyPressed_cycles 3 2 exampleKeyJ).1 (by decide) (by decide) (by decide)).1 rfl,
    by decide, by decide,
    by decide, (keyPressed_cycles 1 0 exampleKeyJ).2.1 (by decide)⟩

/-! ## The code editor vectors -/

theorem vectorInsert_length {α : Type} (v l : List α) (index : ℤ) (x : α)
    (h : vectorInsert v index x = some l) : l.length = v.length + 1 := by
  unfold vectorInsert at h
  split_ifs at h with hr
  injection h with h
  subst h
  have hle : index.toNat ≤ v.length := by omega
  simp only [List.length_append, List.length_cons, List.length_take, List.length_drop]
  omega

theorem vectorErase_length {α : Type} (v l : List α) (index : ℤ)
    (h : vectorErase v index = some l) : l.length + 1 = v.length := by
  unfold vectorErase at h
  split_ifs at h with hr
  injection h with h
  subst h
  have hlt : index.toNat < v.length := by omega
  rw [List.length_eraseIdx, if_pos hlt]
  omega

/-- An insert after the first position of a vector is defined up to the end of the vector
and keeps the first element. -/
theorem vectorInsert_after_head {α : Type} (a : α) (v : List α) (index : ℤ) (x : α)
    (h1 : 1 ≤ index) (h2 : index ≤ ((a :: v).length : ℤ)) :
    ∃ l, vectorInsert (a :: v) index x = some l ∧ l.head? = some a := by
  unfold vectorInsert
  rw [if_pos ⟨by omega, h2⟩]
  refine ⟨_, rfl, ?_⟩
  obtain ⟨n, hn⟩ : ∃ n, index.toNat = n + 1 := ⟨index.toNat - 1, by omega⟩
  rw [hn]
  rfl

namespace CodeEditors

theorem addCodeEditor_lengths (audioProcessor : AudioProcessor) (s t : CodeEditors)
    (index : ℤ) (h : addCodeEditor audioProcessor s index = some t) :
    t.codeEditors.length = s.codeEditors.length + 1 ∧
      t.codeDocuments.length = s.codeDocuments.length + 1 := by
  unfold addCodeEditor at h
  simp only at h
  split at h
  · cases h
  · rename_i docs hdocs
    split at h
    · cases h
    · rename_i eds heds
      injection h with h
      subst h
      exact ⟨vectorInsert_length _ _ _ _ heds, vectorInsert_length _ _ _ _ hdocs⟩

theorem removeCodeEditor_lengths (s t : CodeEditors) (index : ℤ)
    (h : removeCodeEditor s index = some t) :
    t.codeEditors.length + 1 = s.codeEditors.length ∧
      t.codeDocuments.length + 1 = s.codeDocuments.length := by
  unfold removeCodeEditor at h
  simp only at h
  split at h
  · cases h
  · rename_i eds heds
    split at h
    · cases h
    · rename_i docs hdocs
      injection h with h
      subst h
      exact ⟨vectorErase_length _ _ _ heds, vectorErase_length _ _ _ hdocs⟩

/-- Adding the editor of file `k` to vectors of `k + 1` entries is defined and keeps the
first entries. -/
theorem addCodeEditor_at_end (audioProcessor : AudioProcessor) (s : CodeEditors) (k : ℕ)
    (hd : s.codeDocuments.length = k + 1) (he : s.codeEditors.length = k + 1) :
    ∃ t, addCodeEditor audioProcessor s (k : ℤ) = some t ∧
      t.codeDocuments.head? = s.codeDocuments.head? ∧
      t.codeEditors.head? = s.codeEditors.head? := by
  obtain ⟨docs, eds⟩ := s
  cases docs with
  | nil => simp at hd
  | cons d docs =>
    cases eds with
    | nil => simp at he
    | cons e eds =>
      simp only at hd he
      obtain ⟨l1, hl1, hh1⟩ := vectorInsert_after_head d docs ((k : ℤ) + 1)
        (if ((k : ℤ) + 1) = 0 then CodeDocument.customFunctionCodeDocument
          else CodeDocument.created (k : ℤ)) (by omega) (by rw [hd]; push_cast; omega)
      obtain ⟨l2, hl2, hh2⟩ := vectorInsert_after_head e eds ((k : ℤ) + 1)
        (if ((k : ℤ) + 1) = 0 then CodeEditor.customFunctionCodeEditor
          else
            CodeEditor.created
              (if fromLastOccurrenceOf (audioProcessor.getFileName (k : ℤ)) '.' true = ".lua"
                then some CodeTokeniser.luaTokeniser
              else if fromLastOccurrenceOf (audioProcessor.getFileName (k : ℤ)) '.' true = ".svg"
                then some CodeTokeniser.xmlTokeniser
              else none)
              (audioProcessor.getFileId (k : ℤ)) (audioProcessor.getFileName (k : ℤ)))
        (by omega) (by rw [he]; push_cast; omega)
      refine ⟨{ codeDocuments := l1, codeEditors := l2 }, ?_, hh1, hh2⟩
      unfold addCodeEditor
      simp only
      rw [hl1, hl2]

/-- The loop over the files `k, k + 1, ..., k + m - 1` is defined on vectors of `k + 1`
entries, ends with `k + m + 1` entries and keeps the first entries. -/
theorem addCodeEditors_range (audioProcessor : AudioProcessor) (m : ℕ) :
    ∀ (k : ℕ) (s : CodeEditors), s.codeDocuments.length = k + 1 →
      s.codeEditors.length = k + 1 →
      ∃ t, addCodeEditors audioProcessor s (List.range' k m) = some t ∧
        t.codeDocuments.length = k + m + 1 ∧ t.codeEditors.length = k + m + 1 ∧
        t.codeDocuments.head? = s.codeDocuments.head? ∧
        t.codeEditors.head? = s.codeEditors.head? := by
  induction m with
  | zero =>
    intro k s hd he
    exact ⟨s, rfl, hd, he, rfl, rfl⟩
  | succ m ih =>
    intro k s hd he
    obtain ⟨u, hu, hud, hue⟩ := addCodeEditor_at_end audioProcessor s k hd he
    obtain ⟨hlen_e, hlen_d⟩ := addCodeEditor_lengths audioProcessor s u (k : ℤ) hu
    obtain ⟨t, ht, htd, hte, hhd, hhe⟩ := ih (k + 1) u (by omega) (by omega)
    refine ⟨t, ?_, by omega, by omega, hhd.trans hud, hhe.trans hue⟩
    rw [List.range'_succ]
    unfold addCodeEditors
    rw [hu]
    exact ht

end CodeEditors

/-- C28: `initialiseCodeEditors()` is defined and leaves `codeEditors` and `codeDocuments`
with `numFiles() + 1` entries each, entry `0` being the custom function editor and
document; for every current file index in `[-1, numFiles)` and either value of
`editingCustomFunction`, the index `editingCustomFunction ? 0 : currentFileIndex + 1` is a
valid position in `codeEditors`; and `addCodeEditor` and `removeCodeEditor` keep two
vectors of the same length at the same length. -/
theorem CodeEditors.initialiseCodeEditors_in_bounds (audioProcessor : AudioProcessor) :
    (∃ s, CodeEditors.initialiseCodeEditors audioProcessor = some s ∧
      s.codeEditors.length = audioProcessor.numFiles + 1 ∧
      s.codeDocuments.length = audioProcessor.numFiles + 1 ∧
      s.codeEditors.head? = some CodeEditor.customFunctionCodeEditor ∧
      s.codeDocuments.head? = some CodeDocument.customFunctionCodeDocument ∧
      ∀ (editingCustomFunction : Bool) (currentFileIndex : ℤ),
        -1 ≤ currentFileIndex → currentFileIndex < (audioProcessor.numFiles : ℤ) →
        0 ≤ CodeEditors.editorIndex editingCustomFunction currentFileIndex ∧
          CodeEditors.editorIndex editingCustomFunction currentFileIndex
            < (s.codeEditors.length : ℤ)) ∧
    (∀ (s t : CodeEditors) (index : ℤ), s.codeEditors.length = s.codeDocuments.length →
      CodeEditors.addCodeEditor audioProcessor s index = some t →
      t.codeEditors.length = t.codeDocuments.length) ∧
    (∀ (s t : CodeEditors) (index : ℤ), s.codeEditors.length = s.codeDocuments.length →
      CodeEditors.removeCodeEditor s index = some t →
      t.codeEditors.length = t.codeDocuments.length) := by
  refine ⟨?_, ?_, ?_⟩
  · have hfirst : CodeEditors.addCodeEditor audioProcessor
        { codeDocuments := [], codeEditors := [] } (-1)
        = some { codeDocuments := [CodeDocument.customFunctionCodeDocument],
                 codeEditors := [CodeEditor.customFunctionCodeEditor] } := rfl
    obtain ⟨t, ht, htd, hte, hhd, hhe⟩ :=
      CodeEditors.addCodeEditors_range audioProcessor audioProcessor.numFiles 0
        { codeDocuments := [CodeDocument.customFunctionCodeDocument],
          codeEditors := [CodeEditor.customFunctionCodeEditor] } rfl rfl
    refine ⟨t, ?_, by omega, by omega, hhe, hhd, ?_⟩
    · unfold CodeEditors.initialiseCodeEditors
      simp only
      rw [hfirst, List.range_eq_range']
      exact ht
    · intro editing currentFileIndex hlo hhi
      have hlen : (t.codeEditors.length : ℤ) = (audioProcessor.numFiles : ℤ) + 1 := by
        rw [hte]
        push_cast
        ring
      unfold CodeEditors.editorIndex
      rw [hlen]
      cases editing
      · simp only [Bool.false_eq_true, if_false]
        constructor <;> linarith
      · simp only [if_true]
        constructor
        · exact le_refl 0
        · linarith
  · intro s t index hlen h
    obtain ⟨he, hd⟩ := CodeEditors.addCodeEditor_lengths audioProcessor s t index h
    omega
  · intro s t index hlen h
    obtain ⟨he, hd⟩ := CodeEditors.removeCodeEditor_lengths s t index h
    omega

theorem CodeEditors.initialiseCodeEditors_in_bounds_witness :
    CodeEditors.initialiseCodeEditors exampleProcessor
      = some
          { codeDocuments :=
              [CodeDocument.customFunctionCodeDocument, CodeDocument.created 0,
                CodeDocument.created 1, CodeDocument.created 2],
            codeEditors :=
              [CodeEditor.customFunctionCodeEditor,
                CodeEditor.created (some CodeTokeniser.luaTokeniser) 100 "a.lua",
                CodeEditor.created (some CodeTokeniser.xmlTokeniser) 101 "b.svg",
                CodeEditor.created none 102 "c.txt"] } ∧
    (∃ s, CodeEditors.initialiseCodeEditors exampleProcessor = some s ∧
      s.codeEditors.length = exampleProcessor.numFiles + 1) :=
  ⟨by decide,
    (CodeEditors.initialiseCodeEditors_in_bounds exampleProcessor).1.imp
      (fun _ h => ⟨h.1, h.2.1⟩)⟩

/-! ## The visibility of the text settings -/

namespace SettingsComponent

/-- After `fileUpdated` the text settings are visible exactly when the part of the file
name from its last `.` is `".txt"`, whatever `objectServerRendering` is. -/
theorem fileUpdated_eq_true_iff (objectServerRendering : Bool) (fileName : String) :
    fileUpdated objectServerRendering fileName = true ↔
      fromLastOccurrenceOf fileName '.' true = ".txt" := by
  unfold fileUpdated
  simp

/-- C29 on the code: with `objectServerRendering` true and the file name `notes.txt`, whose
part from the last `.` is `".txt"`, `fileUpdated` makes the text settings visible; with
`objectServerRendering` false it does so as well, and with an empty file name they stay
hidden. -/
theorem fileUpdated_shows_txt_while_server_rendering :
    fromLastOccurrenceOf "notes.txt" '.' true = ".txt" ∧
    fileUpdated true "notes.txt" = true ∧
    fileUpdated false "notes.txt" = true ∧
    fileUpdated true "" = false ∧ fileUpdated false "" = false ∧
    fileUpdated false "notes.svg" = false := by
  decide

end SettingsComponent

end OsciRender
